import Mathlib

/-!
Verification of `src/data/program_configuration.js`: a shallow embedding of
the paint-property binder machinery (ProgramConfiguration and its five
binder variants) together with theorems about population, incremental
update, cache-key construction, cross-fade buffer selection and resource
release.

Modelling conventions:
* JS numbers are modelled as `ℚ` (the claims under study involve no
  floating-point rounding); `statistics.max` starts at `-Infinity`, which is
  modelled by `WithBot ℚ` with `⊥` for `-Infinity`.
* Growable struct arrays (`StructArray`) are modelled as `List Entry`, where
  one `Entry` is the list of numbers passed to one `emplaceBack`/`emplace`
  call; `array.length` is the entry count, exactly as in the source.
  `reserve` only pre-allocates capacity and has no observable effect, so it
  is not modelled.
* JS `for (let i = start; i < stop; i++)` loops over arrays are modelled by
  structurally recursive loops on the iteration count `stop - start`.
* JS objects used as string-keyed dictionaries (`imagePositions`, `_idMap`,
  `layer.paint._values`, `featureStates`) are modelled as association lists;
  `for ... in` enumeration order is the list order, and updating an existing
  key keeps its position while a new key is appended at the end.
* The expression evaluator, a collaborator external to this file's source,
  is a function-valued field (`StyleExpression`); `evaluate(params, feature)`
  passes `none` for the absent `featureState` argument.
* GPU buffers are values: `createVertexBuffer` packages the accumulated
  array, and a binder's `destroy` returns the list of buffers whose own
  `destroy()` it invokes (the binder state it returns is unchanged, exactly
  as in the source, which does not clear the buffer references).
* The GL uniform-setting methods (`setUniforms`, `setTileSpecificUniforms`)
  and `ProgramConfigurationSet` are outside the claims and are not modelled.
-/

/-- One struct-array entry: the numbers passed to one `emplaceBack`/`emplace`. -/
abbrev Entry := List ℚ

/-- A realized GPU vertex buffer, as produced by `context.createVertexBuffer
(array, attributes, dynamicDraw)`: it captures the array contents and the
dynamic-draw flag (`expression.isStateDependent`). -/
structure VertexBuffer where
  data : List Entry
  dynamicDraw : Bool
deriving DecidableEq

/-- An image-atlas position `{tl, br, pixelRatio}` (tl/br are `[x, y]`). -/
structure ImagePosition where
  tl : ℚ × ℚ
  br : ℚ × ℚ
  pixelRatio : ℚ
deriving DecidableEq

/-- The `imagePositions: {[string]: ImagePosition}` dictionary. -/
abbrev ImagePositions := List (String × ImagePosition)

/-- A JS feature id: absent (`undefined`), a number, or a string. -/
inductive JSId where
  | undef : JSId
  | num : ℚ → JSId
  | str : String → JSId
deriving DecidableEq

/-- JS truthiness of a feature id: `undefined`, `0` and `""` are falsy. -/
def JSId.truthy : JSId → Bool
  | .undef => false
  | .num n => decide (n ≠ 0)
  | .str s => decide (s ≠ "")

/-- `String(feature.id)`, the `_idMap` key. -/
def JSId.toKey : JSId → String
  | .undef => "undefined"
  | .num n => toString n
  | .str s => s

/-- An RGBA color with channels in `[0, 1]`. -/
structure Color where
  r : ℚ
  g : ℚ
  b : ℚ
  a : ℚ
deriving DecidableEq

/-- A JS value produced by evaluating a style expression: a number, a color,
or a string (pattern expressions evaluate to image names). -/
inductive Value where
  | num : ℚ → Value
  | col : Color → Value
  | str : String → Value
deriving DecidableEq

/-- Read a value as a number (the source only reaches this on numeric
properties). -/
def Value.asNum : Value → ℚ
  | .num q => q
  | _ => 0

/-- Read a value as a color (the source only reaches this on color
properties). -/
def Value.asColor : Value → Color
  | .col c => c
  | _ => ⟨0, 0, 0, 0⟩

/-- A value used as a JS object key (`imagePositions[name]` coerces the name
to a string; pattern expressions produce strings). -/
def Value.asKey : Value → String
  | .str s => s
  | .num q => toString q
  | .col _ => "[color]"

/-- A vector-tile feature: optional stable id plus its property bag (the
latter is consumed only through the expression evaluator). -/
structure Feature where
  id : JSId
  props : List (String × Value)

/-- An opaque feature-state object, diffed externally. -/
abbrev FeatureState := List (String × Value)

/-- Evaluation parameters: `new EvaluationParameters(z)` or `{zoom: z}`. -/
structure EvaluationParameters where
  zoom : ℚ

/-- A style expression, the external evaluator collaborator: `evaluate
(params, feature[, featureState])`, the composite `interpolationFactor
(zoom, lower, upper)`, and the `isStateDependent` flag. -/
structure StyleExpression where
  evaluate : EvaluationParameters → Feature → Option FeatureState → Value
  interpolationFactor : ℚ → ℚ → ℚ → ℚ
  isStateDependent : Bool

/-- Binder statistics; `max` starts at `-Infinity` (modelled by `⊥`). -/
structure Statistics where
  max : WithBot ℚ
deriving DecidableEq

/-- A `StructArrayMember` attribute descriptor. -/
structure StructArrayMember where
  name : String
  type : String
  components : Nat
  offset : Nat
deriving DecidableEq

/-- Modelled from the spec: `packUint8ToFloat` from
`src/shaders/encode_attribute` (not part of the source under study) is the
fixed encode function combining an 8-bit channel pair into a single float. -/
def packUint8ToFloat (a b : ℚ) : ℚ :=
  256 * a + b

/-- Pack a color's four 8-bit channels into two floats. -/
def packColor (color : Color) : ℚ × ℚ :=
  (packUint8ToFloat (255 * color.r) (255 * color.g),
   packUint8ToFloat (255 * color.b) (255 * color.a))

/-- Loop body shared by the populate paths: append `e` once per remaining
iteration, modelling `for (let i = start; i < stop; i++) arr.emplaceBack(…)`
(the counter does not influence the appended entry). -/
def emplaceBackLoop (arr : List Entry) (e : Entry) : Nat → List Entry
  | 0 => arr
  | n + 1 => emplaceBackLoop (arr ++ [e]) e n

/-- `for (let i = start; i < stop; i++) arr.emplaceBack(…)`. -/
def emplaceBackRange (arr : List Entry) (start stop : Nat) (e : Entry) : List Entry :=
  emplaceBackLoop arr e (stop - start)

/-- Loop body shared by the update paths: overwrite index `i`, `i+1`, … for
the given number of iterations, modelling repeated `arr.emplace(i, …)`. -/
def emplaceLoop (arr : List Entry) (e : Entry) (i : Nat) : Nat → List Entry
  | 0 => arr
  | n + 1 => emplaceLoop (arr.set i e) e (i + 1) n

/-- `for (let i = start; i < stop; i++) arr.emplace(i, …)`. -/
def emplaceRange (arr : List Entry) (start stop : Nat) (e : Entry) : List Entry :=
  emplaceLoop arr e start (stop - start)

/-- `ConstantBinder`: uniform-bound constant value; all buffer operations are
no-ops. -/
structure ConstantBinder where
  value : Value
  names : List String
  type : String
  statistics : Statistics

/-- `new ConstantBinder(value, names, type)`. -/
def ConstantBinder.create (value : Value) (names : List String) (type : String) : ConstantBinder :=
  { value := value, names := names, type := type, statistics := ⟨⊥⟩ }

/-- `ConstantBinder.defines()`. -/
def ConstantBinder.defines (b : ConstantBinder) : List String :=
  b.names.map (fun name => "#define HAS_UNIFORM_u_" ++ name)

/-- `CrossFadedConstantBinder`: uniform-bound `{from, to}` pattern pair; all
buffer operations are no-ops. -/
structure CrossFadedConstantBinder where
  value : Value
  names : List String
  type : String
  statistics : Statistics

/-- `new CrossFadedConstantBinder(value, names, type)`. -/
def CrossFadedConstantBinder.create (value : Value) (names : List String) (type : String) : CrossFadedConstantBinder :=
  { value := value, names := names, type := type, statistics := ⟨⊥⟩ }

/-- `CrossFadedConstantBinder.defines()`. -/
def CrossFadedConstantBinder.defines (b : CrossFadedConstantBinder) : List String :=
  b.names.map (fun name => "#define HAS_UNIFORM_u_" ++ name)

/-- `SourceExpressionBinder`: one growable paint array, evaluated once per
feature at zoom 0. -/
structure SourceExpressionBinder where
  expression : StyleExpression
  names : List String
  type : String
  statistics : Statistics
  paintVertexAttributes : List StructArrayMember
  paintVertexArray : List Entry
  paintVertexBuffer : Option VertexBuffer

/-- `new SourceExpressionBinder(expression, names, type, PaintVertexArray)`.
The layout class argument only fixes the width of the backing typed array,
which the list model does not need. -/
def SourceExpressionBinder.create (expression : StyleExpression) (names : List String) (type : String) : SourceExpressionBinder :=
  { expression := expression, names := names, type := type, statistics := ⟨⊥⟩,
    paintVertexAttributes := names.map (fun name =>
      { name := "a_" ++ name, type := "Float32",
        components := if type = "color" then 2 else 1, offset := 0 }),
    paintVertexArray := [], paintVertexBuffer := none }

/-- `SourceExpressionBinder.populatePaintArray(newLength, feature)`. -/
def SourceExpressionBinder.populatePaintArray (b : SourceExpressionBinder) (newLength : Nat) (feature : Feature) : SourceExpressionBinder :=
  let start := b.paintVertexArray.length
  let value := b.expression.evaluate ⟨0⟩ feature none
  if b.type = "color" then
    let color := packColor value.asColor
    { b with paintVertexArray := emplaceBackRange b.paintVertexArray start newLength [color.1, color.2] }
  else
    { b with paintVertexArray := emplaceBackRange b.paintVertexArray start newLength [value.asNum],
             statistics := ⟨max b.statistics.max (value.asNum : WithBot ℚ)⟩ }

/-- `SourceExpressionBinder.updatePaintArray(start, end, feature,
featureState)`. -/
def SourceExpressionBinder.updatePaintArray (b : SourceExpressionBinder) (start stop : Nat) (feature : Feature) (featureState : FeatureState) : SourceExpressionBinder :=
  let value := b.expression.evaluate ⟨0⟩ feature (some featureState)
  if b.type = "color" then
    let color := packColor value.asColor
    { b with paintVertexArray := emplaceRange b.paintVertexArray start stop [color.1, color.2] }
  else
    { b with paintVertexArray := emplaceRange b.paintVertexArray start stop [value.asNum],
             statistics := ⟨max b.statistics.max (value.asNum : WithBot ℚ)⟩ }

/-- `SourceExpressionBinder.upload(context)`: realize the paint array as a
vertex buffer (the array reference is always set, so the guard is trivially
taken). -/
def SourceExpressionBinder.upload (b : SourceExpressionBinder) : SourceExpressionBinder :=
  { b with paintVertexBuffer := some ⟨b.paintVertexArray, b.expression.isStateDependent⟩ }

/-- `SourceExpressionBinder.destroy()`: invoke `destroy()` on the realized
buffer, if any; the binder's own state (including the buffer reference) is
left unchanged, exactly as in the source. Returns the buffers whose
`destroy()` was invoked. -/
def SourceExpressionBinder.destroy (b : SourceExpressionBinder) : SourceExpressionBinder × List VertexBuffer :=
  match b.paintVertexBuffer with
  | some buf => (b, [buf])
  | none => (b, [])

/-- Iterated `destroy()` calls on the same binder, threading the binder state
and concatenating the buffer-destroy invocations. -/
def SourceExpressionBinder.destroySeq (b : SourceExpressionBinder) : Nat → SourceExpressionBinder × List VertexBuffer
  | 0 => (b, [])
  | n + 1 =>
    let d := b.destroy
    let rest := d.1.destroySeq n
    (rest.1, d.2 ++ rest.2)

/-- `CompositeExpressionBinder`: one growable paint array holding min/max
pairs evaluated at zoom `Z` and `Z+1`. -/
structure CompositeExpressionBinder where
  expression : StyleExpression
  names : List String
  type : String
  useIntegerZoom : Bool
  zoom : ℚ
  statistics : Statistics
  paintVertexAttributes : List StructArrayMember
  paintVertexArray : List Entry
  paintVertexBuffer : Option VertexBuffer

/-- `new CompositeExpressionBinder(expression, names, type, useIntegerZoom,
zoom, layout)`. -/
def CompositeExpressionBinder.create (expression : StyleExpression) (names : List String) (type : String) (useIntegerZoom : Bool) (zoom : ℚ) : CompositeExpressionBinder :=
  { expression := expression, names := names, type := type,
    useIntegerZoom := useIntegerZoom, zoom := zoom, statistics := ⟨⊥⟩,
    paintVertexAttributes := names.map (fun name =>
      { name := "a_" ++ name, type := "Float32",
        components := if type = "color" then 4 else 2, offset := 0 }),
    paintVertexArray := [], paintVertexBuffer := none }

/-- `CompositeExpressionBinder.populatePaintArray(newLength, feature)`. -/
def CompositeExpressionBinder.populatePaintArray (b : CompositeExpressionBinder) (newLength : Nat) (feature : Feature) : CompositeExpressionBinder :=
  let start := b.paintVertexArray.length
  let min := b.expression.evaluate ⟨b.zoom⟩ feature none
  let max := b.expression.evaluate ⟨b.zoom + 1⟩ feature none
  if b.type = "color" then
    let minColor := packColor min.asColor
    let maxColor := packColor max.asColor
    { b with paintVertexArray := (emplaceBackRange b.paintVertexArray start newLength
        [minColor.1, minColor.2, maxColor.1, maxColor.2]) }
  else
    { b with
      paintVertexArray := (emplaceBackRange b.paintVertexArray start newLength
        [min.asNum, max.asNum]),
      statistics := ⟨Max.max b.statistics.max (Max.max (min.asNum : WithBot ℚ) (max.asNum : WithBot ℚ))⟩ }

/-- `CompositeExpressionBinder.updatePaintArray(start, end, feature,
featureState)`. -/
def CompositeExpressionBinder.updatePaintArray (b : CompositeExpressionBinder) (start stop : Nat) (feature : Feature) (featureState : FeatureState) : CompositeExpressionBinder :=
  let min := b.expression.evaluate ⟨b.zoom⟩ feature (some featureState)
  let max := b.expression.evaluate ⟨b.zoom + 1⟩ feature (some featureState)
  if b.type = "color" then
    let minColor := packColor min.asColor
    let maxColor := packColor max.asColor
    { b with paintVertexArray := (emplaceRange b.paintVertexArray start stop
        [minColor.1, minColor.2, maxColor.1, maxColor.2]) }
  else
    { b with
      paintVertexArray := (emplaceRange b.paintVertexArray start stop
        [min.asNum, max.asNum]),
      statistics := ⟨Max.max b.statistics.max (Max.max (min.asNum : WithBot ℚ) (max.asNum : WithBot ℚ))⟩ }

/-- `CompositeExpressionBinder.upload(context)`. -/
def CompositeExpressionBinder.upload (b : CompositeExpressionBinder) : CompositeExpressionBinder :=
  { b with paintVertexBuffer := some ⟨b.paintVertexArray, b.expression.isStateDependent⟩ }

/-- `CompositeExpressionBinder.destroy()`: as for the source binder, the
buffer reference is not cleared. -/
def CompositeExpressionBinder.destroy (b : CompositeExpressionBinder) : CompositeExpressionBinder × List VertexBuffer :=
  match b.paintVertexBuffer with
  | some buf => (b, [buf])
  | none => (b, [])

/-- `CompositeExpressionBinder.interpolationFactor(currentZoom)`. -/
def CompositeExpressionBinder.interpolationFactor (b : CompositeExpressionBinder) (currentZoom : ℚ) : ℚ :=
  if b.useIntegerZoom then
    b.expression.interpolationFactor (⌊currentZoom⌋ : ℚ) b.zoom (b.zoom + 1)
  else
    b.expression.interpolationFactor currentZoom b.zoom (b.zoom + 1)

/-- `CrossFadedCompositeBinder`: two parallel growable arrays (zoom-in and
zoom-out), written from pattern positions resolved at `Z-1`, `Z`, `Z+1`. -/
structure CrossFadedCompositeBinder where
  expression : StyleExpression
  names : List String
  type : String
  useIntegerZoom : Bool
  zoom : ℚ
  statistics : Statistics
  paintVertexAttributes : List StructArrayMember
  zoomInPaintVertexArray : List Entry
  zoomOutPaintVertexArray : List Entry
  zoomInPaintVertexBuffer : Option VertexBuffer
  zoomOutPaintVertexBuffer : Option VertexBuffer

/-- `new CrossFadedCompositeBinder(expression, names, type, useIntegerZoom,
zoom, PaintVertexArray)`. -/
def CrossFadedCompositeBinder.create (expression : StyleExpression) (names : List String) (type : String) (useIntegerZoom : Bool) (zoom : ℚ) : CrossFadedCompositeBinder :=
  { expression := expression, names := names, type := type,
    useIntegerZoom := useIntegerZoom, zoom := zoom, statistics := ⟨⊥⟩,
    paintVertexAttributes := names.map (fun name =>
      { name := "a_" ++ name, type := "Uint16", components := 4, offset := 0 }),
    zoomInPaintVertexArray := [], zoomOutPaintVertexArray := [],
    zoomInPaintVertexBuffer := none, zoomOutPaintVertexBuffer := none }

/-- The zoom-in entry `(mid.tl, mid.br, min.tl, min.br)`. -/
def crossFadedZoomInEntry (imageMid imageMin : ImagePosition) : Entry :=
  [imageMid.tl.1, imageMid.tl.2, imageMid.br.1, imageMid.br.2,
   imageMin.tl.1, imageMin.tl.2, imageMin.br.1, imageMin.br.2]

/-- The zoom-out entry `(mid.tl, mid.br, max.tl, max.br)`. -/
def crossFadedZoomOutEntry (imageMid imageMax : ImagePosition) : Entry :=
  [imageMid.tl.1, imageMid.tl.2, imageMid.br.1, imageMid.br.2,
   imageMax.tl.1, imageMax.tl.2, imageMax.br.1, imageMax.br.2]

/-- `CrossFadedCompositeBinder.populatePaintArray(length, feature,
imagePositions)`: if `imagePositions` is null or any of the three resolved
pattern positions is absent, return with nothing written. -/
def CrossFadedCompositeBinder.populatePaintArray (b : CrossFadedCompositeBinder) (length : Nat) (feature : Feature) (imagePositions : Option ImagePositions) : CrossFadedCompositeBinder :=
  let start := b.zoomInPaintVertexArray.length
  let min := b.expression.evaluate ⟨b.zoom - 1⟩ feature none
  let mid := b.expression.evaluate ⟨b.zoom⟩ feature none
  let max := b.expression.evaluate ⟨b.zoom + 1⟩ feature none
  match imagePositions with
  | none => b
  | some positions =>
    match List.lookup min.asKey positions, List.lookup mid.asKey positions,
          List.lookup max.asKey positions with
    | some imageMin, some imageMid, some imageMax =>
      { b with
        zoomInPaintVertexArray :=
          emplaceBackRange b.zoomInPaintVertexArray start length
            (crossFadedZoomInEntry imageMid imageMin),
        zoomOutPaintVertexArray :=
          emplaceBackRange b.zoomOutPaintVertexArray start length
            (crossFadedZoomOutEntry imageMid imageMax) }
    | _, _, _ => b

/-- `CrossFadedCompositeBinder.updatePaintArray(start, end, feature,
featureState, imagePositions)`: same skip policy as population. -/
def CrossFadedCompositeBinder.updatePaintArray (b : CrossFadedCompositeBinder) (start stop : Nat) (feature : Feature) (featureState : FeatureState) (imagePositions : Option ImagePositions) : CrossFadedCompositeBinder :=
  let min := b.expression.evaluate ⟨b.zoom - 1⟩ feature (some featureState)
  let mid := b.expression.evaluate ⟨b.zoom⟩ feature (some featureState)
  let max := b.expression.evaluate ⟨b.zoom + 1⟩ feature (some featureState)
  match imagePositions with
  | none => b
  | some positions =>
    match List.lookup min.asKey positions, List.lookup mid.asKey positions,
          List.lookup max.asKey positions with
    | some imageMin, some imageMid, some imageMax =>
      { b with
        zoomInPaintVertexArray :=
          emplaceRange b.zoomInPaintVertexArray start stop
            (crossFadedZoomInEntry imageMid imageMin),
        zoomOutPaintVertexArray :=
          emplaceRange b.zoomOutPaintVertexArray start stop
            (crossFadedZoomOutEntry imageMid imageMax) }
    | _, _, _ => b

/-- `CrossFadedCompositeBinder.getVertexBuffer(crossfade)`: defined only when
both buffers are realized; selects zoom-in exactly when `fromScale === 2`. -/
structure CrossfadeParameters where
  fromScale : ℚ
  toScale : ℚ
  t : ℚ
deriving DecidableEq

/-- `getVertexBuffer(crossfade)` proper. -/
def CrossFadedCompositeBinder.getVertexBuffer (b : CrossFadedCompositeBinder) (crossfade : CrossfadeParameters) : Option VertexBuffer :=
  match b.zoomOutPaintVertexBuffer, b.zoomInPaintVertexBuffer with
  | some zoomOutBuffer, some zoomInBuffer =>
    some (if crossfade.fromScale = 2 then zoomInBuffer else zoomOutBuffer)
  | _, _ => none

/-- `CrossFadedCompositeBinder.upload(context)`: realize both buffers (the
array references are always set, so the guard is trivially taken). -/
def CrossFadedCompositeBinder.upload (b : CrossFadedCompositeBinder) : CrossFadedCompositeBinder :=
  { b with
    zoomInPaintVertexBuffer := some ⟨b.zoomInPaintVertexArray, b.expression.isStateDependent⟩,
    zoomOutPaintVertexBuffer := some ⟨b.zoomOutPaintVertexArray, b.expression.isStateDependent⟩ }

/-- `CrossFadedCompositeBinder.destroy()`: invoke `destroy()` on the zoom-out
buffer then the zoom-in buffer, without clearing either reference. -/
def CrossFadedCompositeBinder.destroy (b : CrossFadedCompositeBinder) : CrossFadedCompositeBinder × List VertexBuffer :=
  let zoomOutInvocations :=
    match b.zoomOutPaintVertexBuffer with
    | some buf => [buf]
    | none => []
  let zoomInInvocations :=
    match b.zoomInPaintVertexBuffer with
    | some buf => [buf]
    | none => []
  (b, zoomOutInvocations ++ zoomInInvocations)

/-- Iterated `destroy()` calls on a cross-faded binder. -/
def CrossFadedCompositeBinder.destroySeq (b : CrossFadedCompositeBinder) : Nat → CrossFadedCompositeBinder × List VertexBuffer
  | 0 => (b, [])
  | n + 1 =>
    let d := b.destroy
    let rest := d.1.destroySeq n
    (rest.1, d.2 ++ rest.2)

/-- The polymorphic binder strategy: one constructor per source class. -/
inductive Binder where
  | constant : ConstantBinder → Binder
  | crossFadedConstant : CrossFadedConstantBinder → Binder
  | source : SourceExpressionBinder → Binder
  | composite : CompositeExpressionBinder → Binder
  | crossFadedComposite : CrossFadedCompositeBinder → Binder

/-- Dynamic dispatch of `binder.populatePaintArray(length, feature,
imagePositions)`: the constant binders are no-ops, and only the cross-faded
composite binder consumes `imagePositions`. -/
def Binder.populatePaintArray (b : Binder) (newLength : Nat) (feature : Feature) (imagePositions : Option ImagePositions) : Binder :=
  match b with
  | .constant c => .constant c
  | .crossFadedConstant c => .crossFadedConstant c
  | .source s => .source (s.populatePaintArray newLength feature)
  | .composite c => .composite (c.populatePaintArray newLength feature)
  | .crossFadedComposite c => .crossFadedComposite (c.populatePaintArray newLength feature imagePositions)

/-- The per-binder dispatch inside `ProgramConfiguration.populatePaintArrays`:
the `instanceof CrossFadedCompositeBinder` check passes `imagePositions` to
the cross-faded composite binder and the empty object `{}` to every other
binder (which ignores it). -/
def Binder.populateWith (b : Binder) (newLength : Nat) (feature : Feature) (imagePositions : Option ImagePositions) : Binder :=
  match b with
  | .crossFadedComposite cb =>
    .crossFadedComposite (cb.populatePaintArray newLength feature imagePositions)
  | b => b.populatePaintArray newLength feature (some [])

/-- The growable paint arrays a binder owns (none for the uniform-bound
variants, one for the expression variants, two for the cross-faded
composite). -/
def Binder.paintArrays : Binder → List (List Entry)
  | .constant _ => []
  | .crossFadedConstant _ => []
  | .source b => [b.paintVertexArray]
  | .composite b => [b.paintVertexArray]
  | .crossFadedComposite b => [b.zoomInPaintVertexArray, b.zoomOutPaintVertexArray]

/-- Whether `updatePaintArrays` would touch this binder: it must not be one
of the two constant variants and its expression must be state-dependent
(`binder.expression.isStateDependent === true`). -/
def Binder.isStateUpdated : Binder → Bool
  | .constant _ => false
  | .crossFadedConstant _ => false
  | .source b => b.expression.isStateDependent
  | .composite b => b.expression.isStateDependent
  | .crossFadedComposite b => b.expression.isStateDependent

/-- Whether a cross-faded composite binder's three resolved pattern names
(at zoom-1, zoom, zoom+1, evaluated without feature state) all have image
positions, so a populate call writes; every other variant reports `true`
(its populate never skips). -/
def Binder.patternsReady (b : Binder) (feature : Feature) (imagePositions : Option ImagePositions) : Bool :=
  match b with
  | .crossFadedComposite cb =>
    match imagePositions with
    | none => false
    | some positions =>
      (List.lookup (cb.expression.evaluate ⟨cb.zoom - 1⟩ feature none).asKey positions).isSome &&
      (List.lookup (cb.expression.evaluate ⟨cb.zoom⟩ feature none).asKey positions).isSome &&
      (List.lookup (cb.expression.evaluate ⟨cb.zoom + 1⟩ feature none).asKey positions).isSome
  | _ => true

/-- One record of the `FeaturePaintBufferMap`: `{index, start, end}` (the
source's `end` is a Lean keyword, rendered `stop`). -/
structure PosRecord where
  index : Nat
  start : Nat
  stop : Nat
deriving DecidableEq

/-- The `FeaturePaintBufferMap` (`_idMap`): stringified feature id to its
ordered range records. -/
abbrev FeaturePaintBufferMap := List (String × List PosRecord)

/-- `this._idMap[featureId] = this._idMap[featureId] || []` followed by a
`push`: append the record to the id's list, creating the key at the end of
the object when absent. -/
def idMapPush : FeaturePaintBufferMap → String → PosRecord → FeaturePaintBufferMap
  | [], featureId, r => [(featureId, [r])]
  | (k, rs) :: rest, featureId, r =>
    if k = featureId then (k, rs ++ [r]) :: rest
    else (k, rs) :: idMapPush rest featureId r

/-- The kind tag of a `PropertyValue` (`value.value.kind`). -/
inductive PropertyValueKind where
  | constant : PropertyValueKind
  | source : PropertyValueKind
  | composite : PropertyValueKind
deriving DecidableEq

/-- What `createDynamic` reads off one paint property of the layer: the
`instanceof PossiblyEvaluatedPropertyValue` check, the
`supportsPropertyExpression(specification)` check, the binding mode
(`value.property.binder`), the value kind, the specification type,
`useIntegerZoom`, the possibly-evaluated expression (`value.value` when not
constant) and the constant value (`value.value` when constant). -/
structure PossiblyEvaluatedValue where
  isPossiblyEvaluated : Bool
  supportsExpression : Bool
  binder : String
  kind : PropertyValueKind
  type : String
  useIntegerZoom : Bool
  expr : StyleExpression
  constValue : Value

/-- A typed style layer, as consumed here: its `type` and the string-keyed
`paint._values` in enumeration order (with `paint.get` as lookup). -/
structure TypedStyleLayer where
  type : String
  paintValues : List (String × PossiblyEvaluatedValue)

/-- `paintAttributeName(property, type)`: the exception table plus the
mechanical name transform. The fallback drops the single leading
`type + "-"` prefix and converts remaining dashes to underscores. -/
def paintAttributeName (property : String) (type : String) : List String :=
  let attributeNameExceptions : List (String × List String) :=
    [("text-opacity", ["opacity"]),
     ("icon-opacity", ["opacity"]),
     ("text-color", ["fill_color"]),
     ("icon-color", ["fill_color"]),
     ("text-halo-color", ["halo_color"]),
     ("icon-halo-color", ["halo_color"]),
     ("text-halo-blur", ["halo_blur"]),
     ("icon-halo-blur", ["halo_blur"]),
     ("text-halo-width", ["halo_width"]),
     ("icon-halo-width", ["halo_width"]),
     ("line-gap-width", ["gapwidth"]),
     ("line-pattern", ["pattern_to", "pattern_from"]),
     ("fill-pattern", ["pattern_to", "pattern_from"])]
  match List.lookup property attributeNameExceptions with
  | some names => names
  | none => [(property.replace (type ++ "-") "").replace "-" "_"]

/-- The struct-array layout classes appearing in the layout tables. -/
inductive LayoutClass where
  | structArrayLayout1f4 : LayoutClass
  | structArrayLayout2f8 : LayoutClass
  | structArrayLayout4f16 : LayoutClass
  | patternLayoutArray : LayoutClass
deriving DecidableEq

/-- `getLayoutException(property)`. -/
def getLayoutException (property : String) : Option (List (String × LayoutClass)) :=
  List.lookup property
    [("line-pattern", [("source", LayoutClass.patternLayoutArray),
                       ("composite", LayoutClass.patternLayoutArray)]),
     ("fill-pattern", [("source", LayoutClass.patternLayoutArray),
                       ("composite", LayoutClass.patternLayoutArray)])]

/-- `layoutType(property, type, binderType)`: `none` models the fatal lookup
failure on an unknown (type, binder-mode) pair. The selected class only
fixes the backing typed-array width, which the list model does not consume,
so `createDynamic` below does not thread it further. -/
def layoutType (property : String) (type : String) (binderType : String) : Option LayoutClass :=
  let defaultLayouts : List (String × List (String × LayoutClass)) :=
    [("color", [("source", LayoutClass.structArrayLayout2f8),
                ("composite", LayoutClass.structArrayLayout4f16)]),
     ("number", [("source", LayoutClass.structArrayLayout1f4),
                 ("composite", LayoutClass.structArrayLayout2f8)])]
  match getLayoutException property with
  | some layoutException =>
    match List.lookup binderType layoutException with
    | some c => some c
    | none => (List.lookup type defaultLayouts).bind (List.lookup binderType)
  | none => (List.lookup type defaultLayouts).bind (List.lookup binderType)

/-- Code-unit comparison of character lists, the order JS
`Array.prototype.sort` applies to strings (the keys here are ASCII, where
code units and code points agree). -/
def charListLe : List Char → List Char → Bool
  | [], _ => true
  | _ :: _, [] => false
  | a :: as, b :: bs => if a = b then charListLe as bs else decide (a < b)

/-- String comparison by code units, as in `keys.sort()`. -/
def strLe (a b : String) : Bool :=
  charListLe a.data b.data

/-- The order relation backing `keys.sort()`. -/
def strLeRel (a b : String) : Prop :=
  strLe a b = true

instance : DecidableRel strLeRel := fun a b => instDecidableEqBool (strLe a b) true

/-- `keys.sort().join('')`. -/
def sortedJoin (keys : List String) : String :=
  (keys.insertionSort strLeRel).foldl (fun acc k => acc ++ k) ""

/-- `ProgramConfiguration`: per-layer binder set, cache key, feature-range
index and running buffer offset. `_buffers` and `layoutAttributes` are
draw-side bookkeeping outside the claims and are not modelled. -/
structure ProgramConfiguration where
  binders : List (String × Binder)
  cacheKey : String
  idMap : FeaturePaintBufferMap
  bufferOffset : Nat

/-- One step of `createDynamic`'s property loop: skip filtered properties and
values that are not data-drivable; otherwise build the variant selected by
the cross-fade flag and the value kind, and push the matching cache-key
fragment. -/
def createDynamicStep (layer : TypedStyleLayer) (zoom : ℚ) (filterProperties : String → Bool) (acc : List (String × Binder) × List String) (pv : String × PossiblyEvaluatedValue) : List (String × Binder) × List String :=
  let property := pv.1
  let value := pv.2
  if !filterProperties property then acc
  else if !(value.isPossiblyEvaluated && value.supportsExpression) then acc
  else
    let names := paintAttributeName property layer.type
    let type := value.type
    let useIntegerZoom := value.useIntegerZoom
    if value.binder = "cross-faded" then
      if value.kind = PropertyValueKind.constant then
        (acc.1 ++ [(property, Binder.crossFadedConstant (CrossFadedConstantBinder.create value.constValue names type))],
         acc.2 ++ ["/u_" ++ property])
      else
        (acc.1 ++ [(property, Binder.crossFadedComposite (CrossFadedCompositeBinder.create value.expr names type useIntegerZoom zoom))],
         acc.2 ++ ["/a_" ++ property])
    else if value.kind = PropertyValueKind.constant then
      (acc.1 ++ [(property, Binder.constant (ConstantBinder.create value.constValue names type))],
       acc.2 ++ ["/u_" ++ property])
    else if value.kind = PropertyValueKind.source then
      (acc.1 ++ [(property, Binder.source (SourceExpressionBinder.create value.expr names type))],
       acc.2 ++ ["/a_" ++ property])
    else
      (acc.1 ++ [(property, Binder.composite (CompositeExpressionBinder.create value.expr names type useIntegerZoom zoom))],
       acc.2 ++ ["/z_" ++ property])

/-- `ProgramConfiguration.createDynamic(layer, zoom, filterProperties)`. -/
def ProgramConfiguration.createDynamic (layer : TypedStyleLayer) (zoom : ℚ) (filterProperties : String → Bool) : ProgramConfiguration :=
  let built := layer.paintValues.foldl (createDynamicStep layer zoom filterProperties) ([], [])
  { binders := built.1, cacheKey := sortedJoin built.2, idMap := [], bufferOffset := 0 }

/-- `ProgramConfiguration.populatePaintArrays(newLength, feature, index,
imagePositions)`: every binder is populated (cross-faded composite binders
receive `imagePositions`, all others the empty object); a record is appended
to `_idMap` only when `feature.id` is truthy; the offset advances to
`newLength`. -/
def ProgramConfiguration.populatePaintArrays (self : ProgramConfiguration) (newLength : Nat) (feature : Feature) (index : Nat) (imagePositions : Option ImagePositions) : ProgramConfiguration :=
  let binders := self.binders.map (fun pb =>
    (pb.1, pb.2.populateWith newLength feature imagePositions))
  let idMap :=
    if feature.id.truthy then
      idMapPush self.idMap feature.id.toKey ⟨index, self.bufferOffset, newLength⟩
    else
      self.idMap
  { self with binders := binders, idMap := idMap, bufferOffset := newLength }

/-- A vector-tile layer, consumed only through `vtLayer.feature(index)`. -/
structure VectorTileLayer where
  feature : Nat → Feature

/-- The per-binder body of `updatePaintArrays` for one recorded range:
constant-family binders are skipped; a state-dependent binder first has its
expression refreshed from the live layer (`layer.paint.get(property).value`;
the source would fail on an absent property, which callers rule out, so the
model keeps the old expression there) and is then updated over
`[pos.start, pos.end)`; the boolean reports whether `dirty` was set. -/
def Binder.updateForState (b : Binder) (property : String) (layer : TypedStyleLayer) (pos : PosRecord) (feature : Feature) (featureState : FeatureState) (imagePositions : Option ImagePositions) : Binder × Bool :=
  match b with
  | .constant c => (.constant c, false)
  | .crossFadedConstant c => (.crossFadedConstant c, false)
  | .source s =>
    if s.expression.isStateDependent then
      let s :=
        match List.lookup property layer.paintValues with
        | some v => { s with expression := v.expr }
        | none => s
      (.source (s.updatePaintArray pos.start pos.stop feature featureState), true)
    else (.source s, false)
  | .composite c =>
    if c.expression.isStateDependent then
      let c :=
        match List.lookup property layer.paintValues with
        | some v => { c with expression := v.expr }
        | none => c
      (.composite (c.updatePaintArray pos.start pos.stop feature featureState), true)
    else (.composite c, false)
  | .crossFadedComposite c =>
    if c.expression.isStateDependent then
      let c :=
        match List.lookup property layer.paintValues with
        | some v => { c with expression := v.expr }
        | none => c
      (.crossFadedComposite (c.updatePaintArray pos.start pos.stop feature featureState imagePositions), true)
    else (.crossFadedComposite c, false)

/-- The binder loop of `updatePaintArrays` for one recorded range: each
binder is updated independently and `dirty` is OR-accumulated. -/
def updateBindersForPos (binders : List (String × Binder)) (layer : TypedStyleLayer) (pos : PosRecord) (feature : Feature) (featureState : FeatureState) (imagePositions : Option ImagePositions) : List (String × Binder) × Bool :=
  (binders.map (fun pb => (pb.1, (Binder.updateForState pb.2 pb.1 layer pos feature featureState imagePositions).1)),
   binders.any (fun pb => (Binder.updateForState pb.2 pb.1 layer pos feature featureState imagePositions).2))

/-- The `for (const pos of posArray)` loop of `updatePaintArrays`. -/
def updatePosArray (layer : TypedStyleLayer) (vtLayer : VectorTileLayer) (featureState : FeatureState) (imagePositions : Option ImagePositions) (acc : ProgramConfiguration × Bool) (posArray : List PosRecord) : ProgramConfiguration × Bool :=
  posArray.foldl (fun acc2 pos =>
    let feature := vtLayer.feature pos.index
    let updated := updateBindersForPos acc2.1.binders layer pos feature featureState imagePositions
    ({ acc2.1 with binders := updated.1 }, acc2.2 || updated.2)) acc

/-- The `for (const id in featureStates)` body of `updatePaintArrays`:
`const posArray = this._idMap[id]; if (!posArray) continue;` then the range
loop. -/
def updateStep (vtLayer : VectorTileLayer) (layer : TypedStyleLayer) (imagePositions : Option ImagePositions) (acc : ProgramConfiguration × Bool) (idState : String × FeatureState) : ProgramConfiguration × Bool :=
  match List.lookup idState.1 acc.1.idMap with
  | none => acc
  | some posArray => updatePosArray layer vtLayer idState.2 imagePositions acc posArray

/-- `ProgramConfiguration.updatePaintArrays(featureStates, vtLayer, layer,
imagePositions)`: for each changed id with recorded ranges, re-evaluate the
state-dependent binders over those ranges; returns the `dirty` flag. -/
def ProgramConfiguration.updatePaintArrays (self : ProgramConfiguration) (featureStates : List (String × FeatureState)) (vtLayer : VectorTileLayer) (layer : TypedStyleLayer) (imagePositions : Option ImagePositions) : ProgramConfiguration × Bool :=
  featureStates.foldl (updateStep vtLayer layer imagePositions) (self, false)

/-- One recorded `populatePaintArrays` call for a tile. -/
structure PopulateCall where
  newLength : Nat
  feature : Feature
  index : Nat
  imagePositions : Option ImagePositions

/-- Run a sequence of `populatePaintArrays` calls in order. -/
def runPopulate (pc : ProgramConfiguration) : List PopulateCall → ProgramConfiguration
  | [] => pc
  | c :: cs => runPopulate (pc.populatePaintArrays c.newLength c.feature c.index c.imagePositions) cs

/-- The requested lengths of a call sequence never drop below the running
value: within a tile's lifecycle `newLength` is the cumulative vertex count,
so each call requests at least the length already reached. -/
def monoFrom (fromLength : Nat) : List PopulateCall → Bool
  | [] => true
  | c :: cs => decide (fromLength ≤ c.newLength) && monoFrom c.newLength cs

/-- The length reached after the calls (the last requested length). -/
def finalLength (fromLength : Nat) : List PopulateCall → Nat
  | [] => fromLength
  | c :: cs => finalLength c.newLength cs

/-- Every paint array of every binder of `pc` has length `n`. -/
def bindersLengthsEq (pc : ProgramConfiguration) (n : Nat) : Prop :=
  ∀ pb ∈ pc.binders, ∀ arr ∈ pb.2.paintArrays, arr.length = n

/-- Indices untouched by an update pass: `j` lies outside every recorded
`[start, end)` slice of every id present in `featureStates`. -/
def OutsideSlices (featureStates : List (String × FeatureState)) (idMap : FeaturePaintBufferMap) (j : Nat) : Prop :=
  ∀ p ∈ featureStates, ∀ recs, List.lookup p.1 idMap = some recs →
    ∀ r ∈ recs, j < r.start ∨ r.stop ≤ j

/-- Well-formedness of the feature-range index relative to the buffer
offset: every record is an ordered slice below the offset, and each id's
records chain left to right. -/
def idMapOk (idMap : FeaturePaintBufferMap) (offset : Nat) : Prop :=
  ∀ p ∈ idMap, (∀ r ∈ p.2, r.start ≤ r.stop ∧ r.stop ≤ offset) ∧
    List.Chain' (fun a b => a.stop ≤ b.start) p.2

/-- Frame relation between a paint array before and after an update pass:
the length is unchanged and every index satisfying `okJ` (in use: lying
outside all updated slices) keeps its prior value. -/
def ArrFrame (okJ : Nat → Prop) (arr arrAfter : List Entry) : Prop :=
  arrAfter.length = arr.length ∧ ∀ j, okJ j → arrAfter[j]? = arr[j]?

/-- How one named binder may evolve across an update pass: same property
name, untouched (equal) unless it is a non-constant state-dependent binder,
and every paint array framed by `ArrFrame`. -/
def BinderEvolve (okJ : Nat → Prop) (pb pbAfter : String × Binder) : Prop :=
  pbAfter.1 = pb.1 ∧ (pb.2.isStateUpdated = false → pbAfter = pb) ∧
  List.Forall₂ (ArrFrame okJ) pb.2.paintArrays pbAfter.2.paintArrays

/-- Modelled from the spec: the interpolation factor of a linear numeric
expression (the spec's scenario `f(z) = z`, an exponential interpolation
with base 1) over `[lower, upper]`, as supplied by the external expression
module. -/
def linearInterpolationFactor (zoom lower upper : ℚ) : ℚ :=
  (zoom - lower) / (upper - lower)

/-- An example state-dependent numeric expression: evaluates to the current
zoom, with linear interpolation. -/
def exampleNumExpr : StyleExpression :=
  { evaluate := fun params _ _ => Value.num params.zoom,
    interpolationFactor := linearInterpolationFactor,
    isStateDependent := true }

/-- An example state-dependent pattern expression: always the image name
`"p"`. -/
def examplePatternExpr : StyleExpression :=
  { evaluate := fun _ _ _ => Value.str "p",
    interpolationFactor := linearInterpolationFactor,
    isStateDependent := true }

/-- An example atlas position. -/
def examplePosition : ImagePosition :=
  { tl := (0, 1), br := (2, 3), pixelRatio := 1 }

/-- An example atlas holding the one image `"p"`. -/
def examplePositions : ImagePositions :=
  [("p", examplePosition)]

/-- An example feature with the (truthy) stable id `"7"`. -/
def exampleFeature : Feature :=
  { id := JSId.str "7", props := [] }

/-- An example feature with the (truthy) stable id `"8"`. -/
def exampleFeature8 : Feature :=
  { id := JSId.str "8", props := [] }

/-- An example feature whose numeric id `0` is falsy in JS. -/
def exampleFeatureIdZero : Feature :=
  { id := JSId.num 0, props := [] }

/-- An example source-expression binder for a numeric property. -/
def exampleSourceBinder : SourceExpressionBinder :=
  SourceExpressionBinder.create exampleNumExpr ["width"] "number"

/-- An example composite-expression binder at zoom 5 with fractional-zoom
interpolation. -/
def exampleCompositeBinder : CompositeExpressionBinder :=
  CompositeExpressionBinder.create exampleNumExpr ["width"] "number" false 5

/-- An example cross-faded composite binder at zoom 7. -/
def exampleCrossFadedBinder : CrossFadedCompositeBinder :=
  CrossFadedCompositeBinder.create examplePatternExpr ["pattern_to", "pattern_from"] "string" false 7

/-- An example configuration holding one source binder and one cross-faded
composite binder, before any population. -/
def examplePC0 : ProgramConfiguration :=
  { binders := [("line-width", Binder.source exampleSourceBinder),
                ("line-pattern", Binder.crossFadedComposite exampleCrossFadedBinder)],
    cacheKey := "", idMap := [], bufferOffset := 0 }

/-- `examplePC0` after one populate call of one vertex for `exampleFeature`. -/
def examplePC1 : ProgramConfiguration :=
  examplePC0.populatePaintArrays 1 exampleFeature 0 (some examplePositions)

/-- An example vector-tile layer: every index yields `exampleFeature`. -/
def exampleVTLayer : VectorTileLayer :=
  { feature := fun _ => exampleFeature }

/-- An example paint-property value wrapper around a given kind and
expression. -/
def examplePaintValue (binder : String) (kind : PropertyValueKind) (type : String) (expr : StyleExpression) : PossiblyEvaluatedValue :=
  { isPossiblyEvaluated := true, supportsExpression := true, binder := binder,
    kind := kind, type := type, useIntegerZoom := false, expr := expr,
    constValue := Value.num 0 }

/-- An example style layer matching `examplePC0`'s two properties. -/
def exampleLayer : TypedStyleLayer :=
  { type := "line",
    paintValues :=
      [("line-width", examplePaintValue "" PropertyValueKind.source "number" exampleNumExpr),
       ("line-pattern", examplePaintValue "cross-faded" PropertyValueKind.source "string" examplePatternExpr)] }

/-- Three distinct paint entries for the cache-key permutation example. -/
def exampleLayerEntries : List (String × PossiblyEvaluatedValue) :=
  [("line-width", examplePaintValue "" PropertyValueKind.source "number" exampleNumExpr),
   ("line-color", examplePaintValue "" PropertyValueKind.constant "color" exampleNumExpr),
   ("line-pattern", examplePaintValue "cross-faded" PropertyValueKind.source "string" examplePatternExpr)]

/-- The permutation example layer, original enumeration order. -/
def exampleLayerA : TypedStyleLayer :=
  { type := "line", paintValues := exampleLayerEntries }

/-- The permutation example layer with the first two properties swapped. -/
def exampleLayerB : TypedStyleLayer :=
  { type := "line",
    paintValues :=
      match exampleLayerEntries with
      | a :: b :: rest => b :: a :: rest
      | l => l }

/-- The cache-key fragment `createDynamic` pushes for one paint property:
`none` when the property is filtered out or not data-drivable, otherwise
`/u_name`, `/a_name` or `/z_name` according to the selected binding mode
(mirroring the branch structure of `createDynamicStep`). -/
def cacheKeyFragment (filterProperties : String → Bool) (pv : String × PossiblyEvaluatedValue) : Option String :=
  if !filterProperties pv.1 then none
  else if !(pv.2.isPossiblyEvaluated && pv.2.supportsExpression) then none
  else if pv.2.binder = "cross-faded" then
    if pv.2.kind = PropertyValueKind.constant then some ("/u_" ++ pv.1)
    else some ("/a_" ++ pv.1)
  else if pv.2.kind = PropertyValueKind.constant then some ("/u_" ++ pv.1)
  else if pv.2.kind = PropertyValueKind.source then some ("/a_" ++ pv.1)
  else some ("/z_" ++ pv.1)

/-- A distinguishable zoom-in buffer for the cross-fade selection example. -/
def c7ZoomInBuffer : VertexBuffer :=
  { data := [[1]], dynamicDraw := true }

/-- A distinguishable zoom-out buffer for the cross-fade selection example. -/
def c7ZoomOutBuffer : VertexBuffer :=
  { data := [[2]], dynamicDraw := true }

/-- A cross-faded binder with both buffers realized (and distinct). -/
def c7Binder : CrossFadedCompositeBinder :=
  { exampleCrossFadedBinder with
    zoomInPaintVertexBuffer := some c7ZoomInBuffer,
    zoomOutPaintVertexBuffer := some c7ZoomOutBuffer }

/-- A realized buffer for the double-destroy example. -/
def c9Buffer : VertexBuffer :=
  { data := [[3]], dynamicDraw := true }

/-- A source binder whose buffer is realized. -/
def c9Binder : SourceExpressionBinder :=
  { exampleSourceBinder with paintVertexBuffer := some c9Buffer }

/-! ## Loop lemmas -/

theorem emplaceBackLoop_eq (e : Entry) :
    ∀ (n : Nat) (arr : List Entry), emplaceBackLoop arr e n = arr ++ List.replicate n e := by
  intro n
  induction n with
  | zero => intro arr; simp [emplaceBackLoop]
  | succ n ih =>
    intro arr
    rw [emplaceBackLoop, ih]
    simp [List.replicate_succ]

theorem emplaceBackRange_eq (arr : List Entry) (start stop : Nat) (e : Entry) :
    emplaceBackRange arr start stop e = arr ++ List.replicate (stop - start) e :=
  emplaceBackLoop_eq e (stop - start) arr

theorem emplaceBackRange_length (arr : List Entry) (stop : Nat) (e : Entry)
    (h : arr.length ≤ stop) :
    (emplaceBackRange arr arr.length stop e).length = stop := by
  rw [emplaceBackRange_eq]
  simp
  omega

theorem emplaceLoop_length (e : Entry) :
    ∀ (n : Nat) (arr : List Entry) (i : Nat), (emplaceLoop arr e i n).length = arr.length := by
  intro n
  induction n with
  | zero => intro arr i; rfl
  | succ n ih => intro arr i; rw [emplaceLoop, ih]; simp

theorem emplaceLoop_getElem?_outside (e : Entry) :
    ∀ (n : Nat) (arr : List Entry) (i j : Nat), j < i ∨ i + n ≤ j →
      (emplaceLoop arr e i n)[j]? = arr[j]? := by
  intro n
  induction n with
  | zero => intro arr i j _; rfl
  | succ n ih =>
    intro arr i j h
    rw [emplaceLoop, ih (arr.set i e) (i + 1) j (by omega)]
    exact List.getElem?_set_ne (by omega)

theorem emplaceLoop_getElem?_inside (e : Entry) :
    ∀ (n : Nat) (arr : List Entry) (i j : Nat), i ≤ j → j < i + n → j < arr.length →
      (emplaceLoop arr e i n)[j]? = some e := by
  intro n
  induction n with
  | zero => intro arr i j h1 h2 _; omega
  | succ n ih =>
    intro arr i j h1 h2 h3
    rcases Nat.eq_or_lt_of_le h1 with heq | hlt
    · subst heq
      rw [emplaceLoop, emplaceLoop_getElem?_outside e n _ _ _ (Or.inl (Nat.lt_succ_self i))]
      exact List.getElem?_set_self h3
    · rw [emplaceLoop]
      exact ih (arr.set i e) (i + 1) j hlt (by omega) (by simpa using h3)

theorem emplaceRange_length (arr : List Entry) (start stop : Nat) (e : Entry) :
    (emplaceRange arr start stop e).length = arr.length :=
  emplaceLoop_length e (stop - start) arr start

theorem emplaceRange_getElem?_outside (arr : List Entry) (start stop : Nat) (e : Entry)
    (j : Nat) (h : j < start ∨ stop ≤ j) :
    (emplaceRange arr start stop e)[j]? = arr[j]? := by
  unfold emplaceRange
  rcases Nat.le_total stop start with hle | hle
  · rw [Nat.sub_eq_zero_of_le hle]; rfl
  · exact emplaceLoop_getElem?_outside e (stop - start) arr start j (by omega)

theorem emplaceRange_getElem?_inside (arr : List Entry) (start stop : Nat) (e : Entry)
    (j : Nat) (h1 : start ≤ j) (h2 : j < stop) (h3 : j < arr.length) :
    (emplaceRange arr start stop e)[j]? = some e :=
  emplaceLoop_getElem?_inside e (stop - start) arr start j h1 (by omega) h3

/-! ## Claim C7: cross-faded buffer selection -/

/-- C7 (confirmed): on a `CrossFadedCompositeBinder` whose zoom-in and
zoom-out GPU buffers are both realized, `getVertexBuffer(crossfade)` returns
the zoom-in buffer exactly when `crossfade.fromScale` equals 2 and the
zoom-out buffer otherwise. -/
theorem C7_theorem (b : CrossFadedCompositeBinder) (crossfade : CrossfadeParameters)
    (zoomInBuffer zoomOutBuffer : VertexBuffer)
    (hin : b.zoomInPaintVertexBuffer = some zoomInBuffer)
    (hout : b.zoomOutPaintVertexBuffer = some zoomOutBuffer) :
    b.getVertexBuffer crossfade =
      some (if crossfade.fromScale = 2 then zoomInBuffer else zoomOutBuffer) := by
  unfold CrossFadedCompositeBinder.getVertexBuffer
  rw [hin, hout]

/-- C7 witness: on `c7Binder` the selection picks the zoom-in buffer at
`fromScale = 2` and the zoom-out buffer at `fromScale = 1/2`. -/
theorem C7_witness :
    (c7Binder.zoomInPaintVertexBuffer = some c7ZoomInBuffer ∧
     c7Binder.zoomOutPaintVertexBuffer = some c7ZoomOutBuffer) ∧
    c7Binder.getVertexBuffer ⟨2, 1/2, 0⟩ = some c7ZoomInBuffer ∧
    c7Binder.getVertexBuffer ⟨1/2, 2, 0⟩ = some c7ZoomOutBuffer := by
  refine ⟨⟨rfl, rfl⟩, ?_, ?_⟩
  · rw [C7_theorem c7Binder ⟨2, 1/2, 0⟩ c7ZoomInBuffer c7ZoomOutBuffer rfl rfl]
    norm_num
  · rw [C7_theorem c7Binder ⟨1/2, 2, 0⟩ c7ZoomInBuffer c7ZoomOutBuffer rfl rfl]
    norm_num

/-! ## Claim C8: composite interpolation factor -/

/-- C8 (confirmed): a `CompositeExpressionBinder` constructed at zoom `Z`
computes `interpolationFactor(currentZoom)` as the underlying expression's
interpolation factor over `[Z, Z+1]`, at `floor(currentZoom)` when
`useIntegerZoom` is set and at the unmodified fractional zoom otherwise;
for a linear numeric expression at `Z = 5` without integer zoom,
`interpolationFactor(5.5) = 0.5`. -/
theorem C8_theorem (b : CompositeExpressionBinder) (currentZoom : ℚ) :
    (b.useIntegerZoom = true →
      b.interpolationFactor currentZoom =
        b.expression.interpolationFactor (⌊currentZoom⌋ : ℚ) b.zoom (b.zoom + 1)) ∧
    (b.useIntegerZoom = false →
      b.interpolationFactor currentZoom =
        b.expression.interpolationFactor currentZoom b.zoom (b.zoom + 1)) ∧
    (b.useIntegerZoom = false → b.zoom = 5 →
      b.expression.interpolationFactor = linearInterpolationFactor →
      b.interpolationFactor (11/2) = 1/2) := by
  refine ⟨fun h => ?_, fun h => ?_, fun h hz he => ?_⟩
  · simp [CompositeExpressionBinder.interpolationFactor, h]
  · simp [CompositeExpressionBinder.interpolationFactor, h]
  · simp [CompositeExpressionBinder.interpolationFactor, h, hz, he,
      linearInterpolationFactor]
    norm_num

/-- C8 witness: the example composite binder at zoom 5, fractional zoom,
linear expression, yields interpolation factor 1/2 at zoom 5.5. -/
theorem C8_witness :
    (exampleCompositeBinder.useIntegerZoom = false ∧ exampleCompositeBinder.zoom = 5) ∧
    exampleCompositeBinder.interpolationFactor (11/2) = 1/2 :=
  ⟨⟨rfl, rfl⟩, (C8_theorem exampleCompositeBinder (11/2)).2.2 rfl rfl rfl⟩

/-! ## Claim C9: buffer destroy invocations -/

theorem SourceExpressionBinder.destroy_fst (b : SourceExpressionBinder) :
    (b.destroy).1 = b := by
  unfold SourceExpressionBinder.destroy
  cases b.paintVertexBuffer <;> rfl

/-- C9 counterexample: on a source binder with a realized buffer, a sequence
of two `destroy()` calls invokes the same underlying buffer's `destroy`
twice, refuting at-most-once over the binder's lifetime. -/
theorem C9_counterexample :
    (c9Binder.destroySeq 2).2 = [c9Buffer, c9Buffer] ∧
    ¬((c9Binder.destroySeq 2).2.length ≤ 1) := by
  constructor
  · rfl
  · decide

/-- C9 (amended): a single `destroy()` call invokes each buffer realized at
that moment exactly once (and none when no buffer is realized); since the
binder never clears its buffer references, a sequence of `n` `destroy()`
calls invokes the same realized buffer's destroy exactly `n` times, so
at-most-once holds per call, not over the binder's lifetime. -/
theorem C9_theorem (b : SourceExpressionBinder) (c : CrossFadedCompositeBinder)
    (buf bufIn bufOut : VertexBuffer) (n : Nat) :
    (b.paintVertexBuffer = some buf → (b.destroySeq n).2 = List.replicate n buf) ∧
    (b.paintVertexBuffer = none → (b.destroySeq n).2 = []) ∧
    (c.zoomOutPaintVertexBuffer = some bufOut → c.zoomInPaintVertexBuffer = some bufIn →
      (c.destroy).2 = [bufOut, bufIn]) ∧
    (c.zoomOutPaintVertexBuffer = none → c.zoomInPaintVertexBuffer = none →
      (c.destroy).2 = []) := by
  refine ⟨fun h => ?_, fun h => ?_, fun h1 h2 => ?_, fun h1 h2 => ?_⟩
  · induction n with
    | zero => rfl
    | succ n ih =>
      simp only [SourceExpressionBinder.destroySeq, SourceExpressionBinder.destroy_fst]
      unfold SourceExpressionBinder.destroy
      rw [h]
      simp [ih, List.replicate_succ]
  · induction n with
    | zero => rfl
    | succ n ih =>
      simp only [SourceExpressionBinder.destroySeq, SourceExpressionBinder.destroy_fst]
      unfold SourceExpressionBinder.destroy
      rw [h]
      simpa using ih
  · unfold CrossFadedCompositeBinder.destroy
    rw [h1, h2]
    rfl
  · unfold CrossFadedCompositeBinder.destroy
    rw [h1, h2]
    rfl

/-- C9 witness: three `destroy()` calls on the realized example binder
invoke the buffer's destroy three times; the cross-faded example with both
buffers realized invokes each exactly once in one call. -/
theorem C9_witness :
    (c9Binder.paintVertexBuffer = some c9Buffer ∧
     c7Binder.zoomOutPaintVertexBuffer = some c7ZoomOutBuffer ∧
     c7Binder.zoomInPaintVertexBuffer = some c7ZoomInBuffer) ∧
    (c9Binder.destroySeq 3).2 = List.replicate 3 c9Buffer ∧
    (c7Binder.destroy).2 = [c7ZoomOutBuffer, c7ZoomInBuffer] := by
  refine ⟨⟨rfl, rfl, rfl⟩, ?_, ?_⟩
  · exact (C9_theorem c9Binder c7Binder c9Buffer c7ZoomInBuffer c7ZoomOutBuffer 3).1 rfl
  · exact (C9_theorem c9Binder c7Binder c9Buffer c7ZoomInBuffer c7ZoomOutBuffer 3).2.2.1 rfl rfl

/-! ## Claim C10: falsy feature ids are never indexed -/

/-- C10 (confirmed): a feature whose id is falsy in JS — including the
numeric id 0 and the empty string, not only a missing id — contributes no
record to the feature-id map (so no later `updatePaintArrays` lookup can
match it); only the buffer offset advances to the requested length. -/
theorem C10_theorem :
    JSId.truthy (JSId.num 0) = false ∧ JSId.truthy (JSId.str "") = false ∧
    ∀ (pc : ProgramConfiguration) (newLength idx : Nat) (feature : Feature)
      (ips : Option ImagePositions), feature.id.truthy = false →
      (pc.populatePaintArrays newLength feature idx ips).idMap = pc.idMap ∧
      (pc.populatePaintArrays newLength feature idx ips).bufferOffset = newLength ∧
      ∀ id, List.lookup id (pc.populatePaintArrays newLength feature idx ips).idMap =
        List.lookup id pc.idMap := by
  refine ⟨by decide, by decide, ?_⟩
  intro pc newLength idx feature ips h
  unfold ProgramConfiguration.populatePaintArrays
  simp [h]

/-- C10 witness: populating the example configuration with the id-0 feature
leaves the feature-id map unchanged while the offset advances. -/
theorem C10_witness :
    exampleFeatureIdZero.id.truthy = false ∧
    (examplePC1.populatePaintArrays 2 exampleFeatureIdZero 1 (some examplePositions)).idMap =
      examplePC1.idMap ∧
    (examplePC1.populatePaintArrays 2 exampleFeatureIdZero 1 (some examplePositions)).bufferOffset = 2 := by
  refine ⟨by decide, ?_, ?_⟩
  · exact (C10_theorem.2.2 examplePC1 2 1 exampleFeatureIdZero (some examplePositions) (by decide)).1
  · exact (C10_theorem.2.2 examplePC1 2 1 exampleFeatureIdZero (some examplePositions) (by decide)).2.1

/-! ## Claim C6: update with unknown ids is a no-op -/

/-- C6 (confirmed): when no feature id in `featureStates` has an entry in
the feature-id map, `updatePaintArrays` returns false and the configuration
is exactly unchanged — no binder paint array, expression reference or
statistics value is modified. -/
theorem C6_theorem (pc : ProgramConfiguration) (featureStates : List (String × FeatureState))
    (vtLayer : VectorTileLayer) (layer : TypedStyleLayer) (ips : Option ImagePositions)
    (h : ∀ p ∈ featureStates, List.lookup p.1 pc.idMap = none) :
    pc.updatePaintArrays featureStates vtLayer layer ips = (pc, false) := by
  unfold ProgramConfiguration.updatePaintArrays
  induction featureStates with
  | nil => rfl
  | cons p ps ih =>
    rw [List.foldl_cons]
    have hstep : updateStep vtLayer layer ips (pc, false) p = ((pc, false) : ProgramConfiguration × Bool) := by
      unfold updateStep
      rw [show List.lookup p.1 (pc, false).1.idMap = none from h p (List.mem_cons_self p ps)]
    rw [hstep]
    exact ih (fun q hq => h q (List.mem_cons_of_mem p hq))

/-- C6 witness: updating the populated example configuration for the unknown
id `"9"` is a no-op returning false. -/
theorem C6_witness :
    (∀ p ∈ [("9", ([] : FeatureState))], List.lookup p.1 examplePC1.idMap = none) ∧
    examplePC1.updatePaintArrays [("9", [])] exampleVTLayer exampleLayer (some examplePositions) =
      (examplePC1, false) :=
  ⟨by decide,
   C6_theorem examplePC1 [("9", [])] exampleVTLayer exampleLayer (some examplePositions) (by decide)⟩

/-! ## Claim C3: cross-faded missing-image skip policy -/

/-- C3 (confirmed): when the image position for any of the three pattern
names resolved at zoom-1, zoom and zoom+1 is absent from `imagePositions`
(or the dictionary itself is null), a cross-faded populate or update call
writes nothing at all to either paint array and returns normally (the model
is a total function: no error path exists); when all three are present, the
populate call extends both arrays up to the requested length and the update
call overwrites exactly the whole `[start, end)` range of both arrays in
place. -/
theorem C3_theorem (b : CrossFadedCompositeBinder) (len start stop : Nat)
    (f : Feature) (st : FeatureState) (m : ImagePositions) :
    (b.populatePaintArray len f none = b) ∧
    ((List.lookup (b.expression.evaluate ⟨b.zoom - 1⟩ f none).asKey m = none ∨
      List.lookup (b.expression.evaluate ⟨b.zoom⟩ f none).asKey m = none ∨
      List.lookup (b.expression.evaluate ⟨b.zoom + 1⟩ f none).asKey m = none) →
      b.populatePaintArray len f (some m) = b) ∧
    (∀ pMin pMid pMax : ImagePosition,
      List.lookup (b.expression.evaluate ⟨b.zoom - 1⟩ f none).asKey m = some pMin →
      List.lookup (b.expression.evaluate ⟨b.zoom⟩ f none).asKey m = some pMid →
      List.lookup (b.expression.evaluate ⟨b.zoom + 1⟩ f none).asKey m = some pMax →
      b.populatePaintArray len f (some m) =
        { b with
          zoomInPaintVertexArray := b.zoomInPaintVertexArray ++
            List.replicate (len - b.zoomInPaintVertexArray.length)
              (crossFadedZoomInEntry pMid pMin),
          zoomOutPaintVertexArray := b.zoomOutPaintVertexArray ++
            List.replicate (len - b.zoomInPaintVertexArray.length)
              (crossFadedZoomOutEntry pMid pMax) }) ∧
    (b.updatePaintArray start stop f st none = b) ∧
    ((List.lookup (b.expression.evaluate ⟨b.zoom - 1⟩ f (some st)).asKey m = none ∨
      List.lookup (b.expression.evaluate ⟨b.zoom⟩ f (some st)).asKey m = none ∨
      List.lookup (b.expression.evaluate ⟨b.zoom + 1⟩ f (some st)).asKey m = none) →
      b.updatePaintArray start stop f st (some m) = b) ∧
    (∀ pMin pMid pMax : ImagePosition,
      List.lookup (b.expression.evaluate ⟨b.zoom - 1⟩ f (some st)).asKey m = some pMin →
      List.lookup (b.expression.evaluate ⟨b.zoom⟩ f (some st)).asKey m = some pMid →
      List.lookup (b.expression.evaluate ⟨b.zoom + 1⟩ f (some st)).asKey m = some pMax →
      (b.updatePaintArray start stop f st (some m)).zoomInPaintVertexArray.length =
        b.zoomInPaintVertexArray.length ∧
      (b.updatePaintArray start stop f st (some m)).zoomOutPaintVertexArray.length =
        b.zoomOutPaintVertexArray.length ∧
      (∀ j, start ≤ j → j < stop → j < b.zoomInPaintVertexArray.length →
        (b.updatePaintArray start stop f st (some m)).zoomInPaintVertexArray[j]? =
          some (crossFadedZoomInEntry pMid pMin)) ∧
      (∀ j, start ≤ j → j < stop → j < b.zoomOutPaintVertexArray.length →
        (b.updatePaintArray start stop f st (some m)).zoomOutPaintVertexArray[j]? =
          some (crossFadedZoomOutEntry pMid pMax)) ∧
      (∀ j, j < start ∨ stop ≤ j →
        (b.updatePaintArray start stop f st (some m)).zoomInPaintVertexArray[j]? =
          b.zoomInPaintVertexArray[j]? ∧
        (b.updatePaintArray start stop f st (some m)).zoomOutPaintVertexArray[j]? =
          b.zoomOutPaintVertexArray[j]?)) := by
  refine ⟨rfl, fun h => ?_, fun pMin pMid pMax h1 h2 h3 => ?_, rfl, fun h => ?_,
    fun pMin pMid pMax h1 h2 h3 => ?_⟩
  · unfold CrossFadedCompositeBinder.populatePaintArray
    dsimp only
    rcases h with h | h | h
    · rw [h]
    · cases hmin : List.lookup (b.expression.evaluate ⟨b.zoom - 1⟩ f none).asKey m <;>
        rw [h]
    · cases hmin : List.lookup (b.expression.evaluate ⟨b.zoom - 1⟩ f none).asKey m <;>
        cases hmid : List.lookup (b.expression.evaluate ⟨b.zoom⟩ f none).asKey m <;>
        rw [h]
  · unfold CrossFadedCompositeBinder.populatePaintArray
    dsimp only
    rw [h1, h2, h3]
    dsimp only
    rw [emplaceBackRange_eq, emplaceBackRange_eq]
  · unfold CrossFadedCompositeBinder.updatePaintArray
    dsimp only
    rcases h with h | h | h
    · rw [h]
    · cases hmin : List.lookup (b.expression.evaluate ⟨b.zoom - 1⟩ f (some st)).asKey m <;>
        rw [h]
    · cases hmin : List.lookup (b.expression.evaluate ⟨b.zoom - 1⟩ f (some st)).asKey m <;>
        cases hmid : List.lookup (b.expression.evaluate ⟨b.zoom⟩ f (some st)).asKey m <;>
        rw [h]
  · have hres : b.updatePaintArray start stop f st (some m) =
        { b with
          zoomInPaintVertexArray := emplaceRange b.zoomInPaintVertexArray start stop
            (crossFadedZoomInEntry pMid pMin),
          zoomOutPaintVertexArray := emplaceRange b.zoomOutPaintVertexArray start stop
            (crossFadedZoomOutEntry pMid pMax) } := by
      unfold CrossFadedCompositeBinder.updatePaintArray
      dsimp only
      rw [h1, h2, h3]
    rw [hres]
    refine ⟨emplaceRange_length _ _ _ _, emplaceRange_length _ _ _ _,
      fun j hj1 hj2 hj3 => emplaceRange_getElem?_inside _ _ _ _ j hj1 hj2 hj3,
      fun j hj1 hj2 hj3 => emplaceRange_getElem?_inside _ _ _ _ j hj1 hj2 hj3,
      fun j hj => ⟨emplaceRange_getElem?_outside _ _ _ _ j hj,
        emplaceRange_getElem?_outside _ _ _ _ j hj⟩⟩

/-- C3 witness: with the one-image atlas the example cross-faded binder
skips entirely on an empty atlas and writes both full ranges when the image
is present. -/
theorem C3_witness :
    (List.lookup "p" examplePositions = some examplePosition ∧
     List.lookup "p" ([] : ImagePositions) = none) ∧
    (exampleCrossFadedBinder.populatePaintArray 2 exampleFeature (some []) =
      exampleCrossFadedBinder) ∧
    ((exampleCrossFadedBinder.populatePaintArray 2 exampleFeature
        (some examplePositions)).zoomInPaintVertexArray =
      List.replicate 2 (crossFadedZoomInEntry examplePosition examplePosition)) ∧
    ((exampleCrossFadedBinder.populatePaintArray 2 exampleFeature
        (some examplePositions)).zoomOutPaintVertexArray =
      List.replicate 2 (crossFadedZoomOutEntry examplePosition examplePosition)) := by
  refine ⟨⟨by decide, by decide⟩, ?_, ?_, ?_⟩
  · exact (C3_theorem exampleCrossFadedBinder 2 0 0 exampleFeature [] []).2.1
      (Or.inl (by decide))
  · rw [(C3_theorem exampleCrossFadedBinder 2 0 0 exampleFeature [] examplePositions).2.2.1
      examplePosition examplePosition examplePosition (by decide) (by decide) (by decide)]
    decide
  · rw [(C3_theorem exampleCrossFadedBinder 2 0 0 exampleFeature [] examplePositions).2.2.1
      examplePosition examplePosition examplePosition (by decide) (by decide) (by decide)]
    decide

/-! ## Claim C5: monotone offsets and range records -/

theorem idMapOk_mono {idMap : FeaturePaintBufferMap} {off off' : Nat}
    (h : idMapOk idMap off) (hle : off ≤ off') : idMapOk idMap off' := by
  intro p hp
  refine ⟨fun r hr => ?_, (h p hp).2⟩
  have := (h p hp).1 r hr
  omega

theorem idMapOk_push {idMap : FeaturePaintBufferMap} {off : Nat}
    (h : idMapOk idMap off) (key : String) (idx newLength : Nat) (hle : off ≤ newLength) :
    idMapOk (idMapPush idMap key ⟨idx, off, newLength⟩) newLength := by
  induction idMap with
  | nil =>
    intro p hp
    simp only [idMapPush, List.mem_singleton] at hp
    subst hp
    exact ⟨fun r hr => by simp only [List.mem_singleton] at hr; subst hr; exact ⟨hle, le_refl _⟩,
      List.chain'_singleton _⟩
  | cons q rest ih =>
    have hq := h q (List.mem_cons_self q rest)
    have hrest : idMapOk rest off := fun p hp => h p (List.mem_cons_of_mem q hp)
    intro p hp
    unfold idMapPush at hp
    by_cases hk : q.1 = key
    · simp only [hk, if_pos rfl] at hp
      rcases List.mem_cons.mp hp with hp | hp
      · subst hp
        refine ⟨fun r hr => ?_, ?_⟩
        · rcases List.mem_append.mp hr with hr | hr
          · have := hq.1 r hr
            exact ⟨this.1, le_trans this.2 hle⟩
          · simp only [List.mem_singleton] at hr
            subst hr
            exact ⟨hle, le_refl _⟩
        · refine List.chain'_append.mpr ⟨hq.2, List.chain'_singleton _, ?_⟩
          intro x hx y hy
          simp only [List.head?_cons, Option.mem_def, Option.some_inj] at hy
          subst hy
          exact (hq.1 x (List.mem_of_mem_getLast? hx)).2
      · have := idMapOk_mono hrest hle p hp
        exact this
    · rw [if_neg hk] at hp
      rcases List.mem_cons.mp hp with hp | hp
      · subst hp
        refine ⟨fun r hr => ?_, hq.2⟩
        have := hq.1 r hr
        omega
      · exact ih hrest p hp

theorem populatePaintArrays_offset (pc : ProgramConfiguration) (newLength idx : Nat)
    (f : Feature) (ips : Option ImagePositions) :
    (pc.populatePaintArrays newLength f idx ips).bufferOffset = newLength := rfl

theorem populatePaintArrays_idMap (pc : ProgramConfiguration) (newLength idx : Nat)
    (f : Feature) (ips : Option ImagePositions) :
    (pc.populatePaintArrays newLength f idx ips).idMap =
      if f.id.truthy then idMapPush pc.idMap f.id.toKey ⟨idx, pc.bufferOffset, newLength⟩
      else pc.idMap := rfl

theorem runPopulate_idMapOk :
    ∀ (calls : List PopulateCall) (pc : ProgramConfiguration),
      monoFrom pc.bufferOffset calls = true → idMapOk pc.idMap pc.bufferOffset →
      idMapOk (runPopulate pc calls).idMap (runPopulate pc calls).bufferOffset ∧
      (runPopulate pc calls).bufferOffset = finalLength pc.bufferOffset calls ∧
      pc.bufferOffset ≤ (runPopulate pc calls).bufferOffset := by
  intro calls
  induction calls with
  | nil => exact fun pc _ h => ⟨h, rfl, le_refl _⟩
  | cons c cs ih =>
    intro pc hmono hok
    simp only [monoFrom, Bool.and_eq_true, decide_eq_true_eq] at hmono
    obtain ⟨hle, hmono'⟩ := hmono
    set pc1 := pc.populatePaintArrays c.newLength c.feature c.index c.imagePositions with hpc1
    have hoff1 : pc1.bufferOffset = c.newLength := rfl
    have hok1 : idMapOk pc1.idMap pc1.bufferOffset := by
      rw [hpc1, populatePaintArrays_idMap, populatePaintArrays_offset]
      by_cases ht : c.feature.id.truthy
      · rw [if_pos ht]
        exact idMapOk_push hok _ _ _ hle
      · rw [if_neg ht]
        exact idMapOk_mono hok hle
    have hmono1 : monoFrom pc1.bufferOffset cs = true := by rw [hoff1]; exact hmono'
    have hrun : runPopulate pc (c :: cs) = runPopulate pc1 cs := rfl
    have hfin : finalLength pc.bufferOffset (c :: cs) = finalLength pc1.bufferOffset cs := by
      rw [hoff1]; rfl
    rw [hrun, hfin]
    obtain ⟨h1, h2, h3⟩ := ih pc1 hmono1 hok1
    exact ⟨h1, h2, le_trans hle (hoff1 ▸ h3)⟩

/-- C5 (confirmed): each `populatePaintArrays` call appends a record whose
`start` is the offset left by the previous call and whose `end` is the new
requested length, and advances the stored offset to that length; across any
call sequence whose requested lengths never drop below the running offset
(the tile-lifecycle contract: `newLength` is the cumulative vertex count),
the offset never decreases and every id's recorded `end` values are
non-decreasing in call order (consecutive records chain `end ≤ next start`)
and bounded by the final offset. -/
theorem C5_theorem (pc : ProgramConfiguration) (calls : List PopulateCall)
    (newLength idx : Nat) (f : Feature) (ips : Option ImagePositions) :
    ((pc.populatePaintArrays newLength f idx ips).bufferOffset = newLength ∧
     (f.id.truthy = true →
       (pc.populatePaintArrays newLength f idx ips).idMap =
         idMapPush pc.idMap f.id.toKey ⟨idx, pc.bufferOffset, newLength⟩)) ∧
    (monoFrom pc.bufferOffset calls = true → idMapOk pc.idMap pc.bufferOffset →
      idMapOk (runPopulate pc calls).idMap (runPopulate pc calls).bufferOffset ∧
      (runPopulate pc calls).bufferOffset = finalLength pc.bufferOffset calls ∧
      pc.bufferOffset ≤ (runPopulate pc calls).bufferOffset) := by
  refine ⟨⟨populatePaintArrays_offset pc newLength idx f ips, fun ht => ?_⟩,
    fun hmono hok => runPopulate_idMapOk calls pc hmono hok⟩
  rw [populatePaintArrays_idMap, if_pos ht]

/-- C5 witness: two populate calls (lengths 1 then 3) on the fresh example
configuration leave offset 3, records `[0,1)` for id "7" and `[1,3)` for id
"8", and a well-formed chained id map. -/
theorem C5_witness :
    (monoFrom examplePC0.bufferOffset
        [⟨1, exampleFeature, 0, some examplePositions⟩,
         ⟨3, exampleFeature8, 1, some examplePositions⟩] = true ∧
      idMapOk examplePC0.idMap examplePC0.bufferOffset ∧
      exampleFeature.id.truthy = true) ∧
    (examplePC0.populatePaintArrays 1 exampleFeature 0 (some examplePositions)).idMap =
      idMapPush examplePC0.idMap "7" ⟨0, 0, 1⟩ ∧
    idMapOk
      (runPopulate examplePC0
        [⟨1, exampleFeature, 0, some examplePositions⟩,
         ⟨3, exampleFeature8, 1, some examplePositions⟩]).idMap
      (runPopulate examplePC0
        [⟨1, exampleFeature, 0, some examplePositions⟩,
         ⟨3, exampleFeature8, 1, some examplePositions⟩]).bufferOffset ∧
    (runPopulate examplePC0
        [⟨1, exampleFeature, 0, some examplePositions⟩,
         ⟨3, exampleFeature8, 1, some examplePositions⟩]).bufferOffset = 3 := by
  refine ⟨⟨by decide, by unfold idMapOk; decide, by decide⟩, ?_, ?_, ?_⟩
  · exact (C5_theorem examplePC0 [] 1 0 exampleFeature (some examplePositions)).1.2 (by decide)
  · exact ((C5_theorem examplePC0
      [⟨1, exampleFeature, 0, some examplePositions⟩,
       ⟨3, exampleFeature8, 1, some examplePositions⟩] 1 0 exampleFeature
      (some examplePositions)).2 (by decide) (by unfold idMapOk; decide)).1
  · rw [((C5_theorem examplePC0
      [⟨1, exampleFeature, 0, some examplePositions⟩,
       ⟨3, exampleFeature8, 1, some examplePositions⟩] 1 0 exampleFeature
      (some examplePositions)).2 (by decide) (by unfold idMapOk; decide)).2.1]
    rfl

/-! ## Claim C4: cache-key permutation invariance -/

theorem charListLe_total : ∀ as bs : List Char, charListLe as bs = true ∨ charListLe bs as = true := by
  intro as
  induction as with
  | nil => intro bs; left; rfl
  | cons a as ih =>
    intro bs
    cases bs with
    | nil => right; rfl
    | cons b bs =>
      by_cases hab : a = b
      · subst hab
        rcases ih bs with h | h
        · left; simpa [charListLe] using h
        · right; simpa [charListLe] using h
      · rcases lt_or_gt_of_ne hab with hlt | hgt
        · left; simp [charListLe, hab, hlt]
        · right; simp [charListLe, Ne.symm hab, hgt]

theorem charListLe_trans : ∀ as bs cs : List Char,
    charListLe as bs = true → charListLe bs cs = true → charListLe as cs = true := by
  intro as
  induction as with
  | nil => intro bs cs _ _; rfl
  | cons a as ih =>
    intro bs cs h1 h2
    cases bs with
    | nil => simp [charListLe] at h1
    | cons b bs =>
      cases cs with
      | nil => simp [charListLe] at h2
      | cons c cs =>
        by_cases hab : a = b <;> by_cases hbc : b = c
        · subst hab; subst hbc
          simp only [charListLe, if_pos rfl] at h1 h2 ⊢
          exact ih _ _ h1 h2
        · subst hab
          simp only [charListLe, if_neg hbc] at h2 ⊢
          exact h2
        · subst hbc
          simp only [charListLe, if_neg hab] at h1 ⊢
          exact h1
        · simp only [charListLe, if_neg hab] at h1
          simp only [charListLe, if_neg hbc] at h2
          have hac : a < c := lt_trans (of_decide_eq_true h1) (of_decide_eq_true h2)
          simp only [charListLe, if_neg (ne_of_lt hac)]
          exact decide_eq_true hac

theorem charListLe_antisymm : ∀ as bs : List Char,
    charListLe as bs = true → charListLe bs as = true → as = bs := by
  intro as
  induction as with
  | nil =>
    intro bs h1 h2
    cases bs with
    | nil => rfl
    | cons b bs => simp [charListLe] at h2
  | cons a as ih =>
    intro bs h1 h2
    cases bs with
    | nil => simp [charListLe] at h1
    | cons b bs =>
      by_cases hab : a = b
      · subst hab
        simp only [charListLe, if_pos rfl] at h1 h2
        rw [ih bs h1 h2]
      · simp only [charListLe, if_neg hab] at h1
        simp only [charListLe, if_neg (Ne.symm hab)] at h2
        exact absurd (lt_trans (of_decide_eq_true h1) (of_decide_eq_true h2)) (lt_irrefl a)

theorem insertionSort_eq_of_perm {l1 l2 : List String} (h : l1.Perm l2) :
    List.insertionSort strLeRel l1 = List.insertionSort strLeRel l2 := by
  haveI : IsTrans String strLeRel := ⟨fun a b c => charListLe_trans a.data b.data c.data⟩
  haveI : IsTotal String strLeRel := ⟨fun a b => charListLe_total a.data b.data⟩
  haveI : IsAntisymm String strLeRel :=
    ⟨fun a b h1 h2 => String.ext (charListLe_antisymm a.data b.data h1 h2)⟩
  exact List.eq_of_perm_of_sorted
    ((List.perm_insertionSort strLeRel l1).trans (h.trans (List.perm_insertionSort strLeRel l2).symm))
    (List.sorted_insertionSort strLeRel l1)
    (List.sorted_insertionSort strLeRel l2)

theorem sortedJoin_perm {l1 l2 : List String} (h : l1.Perm l2) : sortedJoin l1 = sortedJoin l2 := by
  unfold sortedJoin
  rw [insertionSort_eq_of_perm h]

theorem createDynamicStep_snd (layer : TypedStyleLayer) (zoom : ℚ) (fp : String → Bool)
    (acc : List (String × Binder) × List String) (pv : String × PossiblyEvaluatedValue) :
    (createDynamicStep layer zoom fp acc pv).2 = acc.2 ++ (cacheKeyFragment fp pv).toList := by
  unfold createDynamicStep cacheKeyFragment
  by_cases h1 : fp pv.1 <;>
    by_cases h2 : (pv.2.isPossiblyEvaluated && pv.2.supportsExpression) = true <;>
    by_cases h3 : pv.2.binder = "cross-faded" <;>
    by_cases h4 : pv.2.kind = PropertyValueKind.constant <;>
    by_cases h5 : pv.2.kind = PropertyValueKind.source <;>
    simp [h1, h2, h3, h4, h5]

theorem createDynamic_keys (layer : TypedStyleLayer) (zoom : ℚ) (fp : String → Bool) :
    ∀ (l : List (String × PossiblyEvaluatedValue)) (acc : List (String × Binder) × List String),
      (l.foldl (createDynamicStep layer zoom fp) acc).2 =
        acc.2 ++ l.filterMap (cacheKeyFragment fp) := by
  intro l
  induction l with
  | nil => intro acc; simp
  | cons pv rest ih =>
    intro acc
    rw [List.foldl_cons, ih, createDynamicStep_snd]
    cases hf : cacheKeyFragment fp pv <;> simp [List.filterMap_cons, hf]

theorem createDynamic_cacheKey (layer : TypedStyleLayer) (zoom : ℚ) (fp : String → Bool) :
    (ProgramConfiguration.createDynamic layer zoom fp).cacheKey =
      sortedJoin (layer.paintValues.filterMap (cacheKeyFragment fp)) := by
  unfold ProgramConfiguration.createDynamic
  dsimp only
  rw [createDynamic_keys]
  rfl

/-- C4 (confirmed): the cache key built by `createDynamic` is a pure
function of the multiset of per-property key fragments (property name with
its binding mode) that pass the filter: any two enumeration orders of the
same paint properties — even at different zooms — yield the same cache-key
string, because the fragments are sorted before joining. -/
theorem C4_theorem (layer1 layer2 : TypedStyleLayer) (zoom1 zoom2 : ℚ) (fp : String → Bool)
    (hperm : layer1.paintValues.Perm layer2.paintValues) :
    (ProgramConfiguration.createDynamic layer1 zoom1 fp).cacheKey =
      (ProgramConfiguration.createDynamic layer2 zoom2 fp).cacheKey := by
  rw [createDynamic_cacheKey, createDynamic_cacheKey]
  exact sortedJoin_perm (hperm.filterMap (cacheKeyFragment fp))

/-- C4 witness: swapping the first two paint properties of the example layer
leaves the cache key unchanged, and it concretely equals the sorted join of
the three fragments. -/
theorem C4_witness :
    (ProgramConfiguration.createDynamic exampleLayerA 5 (fun _ => true)).cacheKey =
      (ProgramConfiguration.createDynamic exampleLayerB 5 (fun _ => true)).cacheKey ∧
    (ProgramConfiguration.createDynamic exampleLayerB 5 (fun _ => true)).cacheKey =
      "/a_line-pattern/a_line-width/u_line-color" := by
  constructor
  · refine C4_theorem exampleLayerA exampleLayerB 5 5 (fun _ => true) ?_
    unfold exampleLayerA exampleLayerB exampleLayerEntries
    dsimp only
    exact List.Perm.swap _ _ _
  · decide

/-! ## Claim C1: binder array lengths after population -/

theorem crossFaded_patternsReady_elim (b : CrossFadedCompositeBinder) (f : Feature)
    (m : ImagePositions)
    (h : Binder.patternsReady (Binder.crossFadedComposite b) f (some m) = true) :
    ∃ pMin pMid pMax : ImagePosition,
      List.lookup (b.expression.evaluate ⟨b.zoom - 1⟩ f none).asKey m = some pMin ∧
      List.lookup (b.expression.evaluate ⟨b.zoom⟩ f none).asKey m = some pMid ∧
      List.lookup (b.expression.evaluate ⟨b.zoom + 1⟩ f none).asKey m = some pMax := by
  have h' : (((List.lookup (b.expression.evaluate ⟨b.zoom - 1⟩ f none).asKey m).isSome &&
      (List.lookup (b.expression.evaluate ⟨b.zoom⟩ f none).asKey m).isSome) &&
      (List.lookup (b.expression.evaluate ⟨b.zoom + 1⟩ f none).asKey m).isSome) = true := h
  rw [Bool.and_eq_true, Bool.and_eq_true] at h'
  obtain ⟨⟨h1, h2⟩, h3⟩ := h'
  rw [Option.isSome_iff_exists] at h1 h2 h3
  obtain ⟨pMin, h1⟩ := h1
  obtain ⟨pMid, h2⟩ := h2
  obtain ⟨pMax, h3⟩ := h3
  exact ⟨pMin, pMid, pMax, h1, h2, h3⟩

theorem CrossFadedCompositeBinder.populate_lengths (b : CrossFadedCompositeBinder)
    (nl : Nat) (f : Feature) (ips : Option ImagePositions)
    (hready : Binder.patternsReady (Binder.crossFadedComposite b) f ips = true)
    (hin : b.zoomInPaintVertexArray.length ≤ nl)
    (hsync : b.zoomOutPaintVertexArray.length = b.zoomInPaintVertexArray.length) :
    (b.populatePaintArray nl f ips).zoomInPaintVertexArray.length = nl ∧
    (b.populatePaintArray nl f ips).zoomOutPaintVertexArray.length = nl := by
  cases ips with
  | none => simp [Binder.patternsReady] at hready
  | some m =>
    obtain ⟨pMin, pMid, pMax, h1, h2, h3⟩ := crossFaded_patternsReady_elim b f m hready
    unfold CrossFadedCompositeBinder.populatePaintArray
    dsimp only
    rw [h1, h2, h3]
    dsimp only
    rw [emplaceBackRange_eq, emplaceBackRange_eq]
    constructor <;> simp <;> omega

theorem sourceBinder_populate_length (s : SourceExpressionBinder) (nl : Nat)
    (f : Feature) (h : s.paintVertexArray.length ≤ nl) :
    (s.populatePaintArray nl f).paintVertexArray.length = nl := by
  unfold SourceExpressionBinder.populatePaintArray
  dsimp only
  by_cases hc : s.type = "color"
  · rw [if_pos hc]
    exact emplaceBackRange_length _ _ _ h
  · rw [if_neg hc]
    exact emplaceBackRange_length _ _ _ h

theorem compositeBinder_populate_length (c : CompositeExpressionBinder) (nl : Nat)
    (f : Feature) (h : c.paintVertexArray.length ≤ nl) :
    (c.populatePaintArray nl f).paintVertexArray.length = nl := by
  unfold CompositeExpressionBinder.populatePaintArray
  dsimp only
  by_cases hc : c.type = "color"
  · rw [if_pos hc]
    exact emplaceBackRange_length _ _ _ h
  · rw [if_neg hc]
    exact emplaceBackRange_length _ _ _ h

theorem Binder.populateWith_lengths (b : Binder) (nl L : Nat) (f : Feature)
    (ips : Option ImagePositions)
    (hready : b.patternsReady f ips = true)
    (hL : ∀ arr ∈ b.paintArrays, arr.length = L) (hle : L ≤ nl) :
    ∀ arr ∈ (b.populateWith nl f ips).paintArrays, arr.length = nl := by
  cases b with
  | constant c => intro arr h; simp [Binder.populateWith, Binder.populatePaintArray, Binder.paintArrays] at h
  | crossFadedConstant c => intro arr h; simp [Binder.populateWith, Binder.populatePaintArray, Binder.paintArrays] at h
  | source s =>
    intro arr h
    simp only [Binder.populateWith, Binder.populatePaintArray, Binder.paintArrays,
      List.mem_singleton] at h
    subst h
    refine sourceBinder_populate_length s nl f ?_
    have := hL s.paintVertexArray (by simp [Binder.paintArrays])
    omega
  | composite c =>
    intro arr h
    simp only [Binder.populateWith, Binder.populatePaintArray, Binder.paintArrays,
      List.mem_singleton] at h
    subst h
    refine compositeBinder_populate_length c nl f ?_
    have := hL c.paintVertexArray (by simp [Binder.paintArrays])
    omega
  | crossFadedComposite cb =>
    intro arr h
    have hin : cb.zoomInPaintVertexArray.length = L :=
      hL cb.zoomInPaintVertexArray (by simp [Binder.paintArrays])
    have hout : cb.zoomOutPaintVertexArray.length = L :=
      hL cb.zoomOutPaintVertexArray (by simp [Binder.paintArrays])
    have hlen := cb.populate_lengths nl f ips hready (by omega) (by omega)
    have hmem : arr = (cb.populatePaintArray nl f ips).zoomInPaintVertexArray ∨
        arr = (cb.populatePaintArray nl f ips).zoomOutPaintVertexArray := by
      simpa [Binder.populateWith, Binder.paintArrays] using h
    rcases hmem with hmem | hmem
    · rw [hmem]; exact hlen.1
    · rw [hmem]; exact hlen.2

theorem CrossFadedCompositeBinder.populate_static (cb : CrossFadedCompositeBinder)
    (nl : Nat) (f : Feature) (ips : Option ImagePositions) :
    (cb.populatePaintArray nl f ips).expression = cb.expression ∧
    (cb.populatePaintArray nl f ips).zoom = cb.zoom := by
  unfold CrossFadedCompositeBinder.populatePaintArray
  cases ips with
  | none => exact ⟨rfl, rfl⟩
  | some m =>
    dsimp only
    cases List.lookup (cb.expression.evaluate ⟨cb.zoom - 1⟩ f none).asKey m <;>
      cases List.lookup (cb.expression.evaluate ⟨cb.zoom⟩ f none).asKey m <;>
      cases List.lookup (cb.expression.evaluate ⟨cb.zoom + 1⟩ f none).asKey m <;>
      exact ⟨rfl, rfl⟩

theorem Binder.populateWith_patternsReady (b : Binder) (nl : Nat) (f : Feature)
    (ips : Option ImagePositions) (f' : Feature) (ips' : Option ImagePositions) :
    (b.populateWith nl f ips).patternsReady f' ips' = b.patternsReady f' ips' := by
  cases b with
  | constant c => rfl
  | crossFadedConstant c => rfl
  | source s => rfl
  | composite c => rfl
  | crossFadedComposite cb =>
    show Binder.patternsReady (.crossFadedComposite (cb.populatePaintArray nl f ips)) f' ips' = _
    unfold Binder.patternsReady
    simp only [(cb.populate_static nl f ips).1, (cb.populate_static nl f ips).2]

theorem populatePaintArrays_lengths (pc : ProgramConfiguration) (nl L idx : Nat) (f : Feature)
    (ips : Option ImagePositions)
    (hready : ∀ pb ∈ pc.binders, pb.2.patternsReady f ips = true)
    (hL : bindersLengthsEq pc L) (hle : L ≤ nl) :
    bindersLengthsEq (pc.populatePaintArrays nl f idx ips) nl := by
  intro pb' hpb'
  obtain ⟨pb, hpb, heq⟩ := List.mem_map.mp hpb'
  rw [← heq]
  exact pb.2.populateWith_lengths nl L f ips (hready pb hpb) (hL pb hpb) hle

theorem populatePaintArrays_ready (pc : ProgramConfiguration) (nl idx : Nat) (f : Feature)
    (ips : Option ImagePositions) (f' : Feature) (ips' : Option ImagePositions)
    (hready : ∀ pb ∈ pc.binders, pb.2.patternsReady f' ips' = true) :
    ∀ pb' ∈ (pc.populatePaintArrays nl f idx ips).binders,
      pb'.2.patternsReady f' ips' = true := by
  intro pb' hpb'
  obtain ⟨pb, hpb, heq⟩ := List.mem_map.mp hpb'
  rw [← heq]
  rw [show ((pb.1, pb.2.populateWith nl f ips) : String × Binder).2 =
    pb.2.populateWith nl f ips from rfl]
  rw [pb.2.populateWith_patternsReady nl f ips f' ips']
  exact hready pb hpb

/-- C1 (corrected, amended form): starting from binder arrays of a common
length, a sequence of `populatePaintArrays` calls with non-decreasing
requested lengths leaves every binder's every paint array at exactly the
final requested length, provided every call's `imagePositions` carries the
three resolved pattern positions of every cross-faded composite binder (the
variants in which population never skips need no proviso). -/
theorem C1_theorem (pc : ProgramConfiguration) (calls : List PopulateCall) (L : Nat)
    (hL : bindersLengthsEq pc L) (hmono : monoFrom L calls = true)
    (hready : ∀ c ∈ calls, ∀ pb ∈ pc.binders,
      pb.2.patternsReady c.feature c.imagePositions = true) :
    bindersLengthsEq (runPopulate pc calls) (finalLength L calls) := by
  induction calls generalizing pc L with
  | nil => exact hL
  | cons c cs ih =>
    simp only [monoFrom, Bool.and_eq_true, decide_eq_true_eq] at hmono
    obtain ⟨hle, hmono'⟩ := hmono
    refine ih (pc.populatePaintArrays c.newLength c.feature c.index c.imagePositions)
      c.newLength ?_ hmono' ?_
    · exact populatePaintArrays_lengths pc c.newLength L c.index c.feature c.imagePositions
        (hready c (List.mem_cons_self c cs)) hL hle
    · intro c' hc'
      exact populatePaintArrays_ready pc c.newLength c.index c.feature c.imagePositions
        c'.feature c'.imagePositions
        (fun pb hpb => hready c' (List.mem_cons_of_mem c hc') pb hpb)

/-- C1 counterexample: one populate call of length 1 whose `imagePositions`
lacks the resolved pattern image leaves the cross-faded binder's arrays at
length 0 instead of the requested 1 (while the source binder reaches 1), so
the claim's "regardless of which pattern names are present" fails. -/
theorem C1_counterexample :
    (examplePC0.populatePaintArrays 1 exampleFeature 0 (some [])).binders.map
        (fun pb => pb.2.paintArrays.map List.length) = [[1], [0, 0]] ∧
    ¬ bindersLengthsEq (examplePC0.populatePaintArrays 1 exampleFeature 0 (some [])) 1 := by
  constructor
  · rfl
  · unfold bindersLengthsEq
    decide

/-- C1 witness: two populate calls (lengths 1 then 3) with the pattern image
present leave every array of both example binders at length 3. -/
theorem C1_witness :
    (bindersLengthsEq examplePC0 0 ∧
      monoFrom 0 [⟨1, exampleFeature, 0, some examplePositions⟩,
        ⟨3, exampleFeature8, 1, some examplePositions⟩] = true ∧
      ∀ c ∈ [(⟨1, exampleFeature, 0, some examplePositions⟩ : PopulateCall),
        ⟨3, exampleFeature8, 1, some examplePositions⟩],
        ∀ pb ∈ examplePC0.binders, pb.2.patternsReady c.feature c.imagePositions = true) ∧
    bindersLengthsEq
      (runPopulate examplePC0 [⟨1, exampleFeature, 0, some examplePositions⟩,
        ⟨3, exampleFeature8, 1, some examplePositions⟩]) 3 := by
  refine ⟨⟨by unfold bindersLengthsEq; decide, by decide, by decide⟩, ?_⟩
  exact C1_theorem examplePC0
    [⟨1, exampleFeature, 0, some examplePositions⟩,
     ⟨3, exampleFeature8, 1, some examplePositions⟩] 0
    (by unfold bindersLengthsEq; decide) (by decide) (by decide)

/-! ## Claim C2: frame and effect of updatePaintArrays -/

theorem arrFrame_refl (okJ : Nat → Prop) (arr : List Entry) : ArrFrame okJ arr arr :=
  ⟨rfl, fun _ _ => rfl⟩

theorem arrFrame_trans (okJ : Nat → Prop) {a b c : List Entry}
    (h1 : ArrFrame okJ a b) (h2 : ArrFrame okJ b c) : ArrFrame okJ a c :=
  ⟨h2.1.trans h1.1, fun j hj => (h2.2 j hj).trans (h1.2 j hj)⟩

theorem forall2_trans {α : Type} (r : α → α → Prop)
    (hr : ∀ x y z : α, r x y → r y z → r x z) :
    ∀ {l1 l2 l3 : List α}, List.Forall₂ r l1 l2 → List.Forall₂ r l2 l3 →
      List.Forall₂ r l1 l3 := by
  intro l1 l2 l3 h12
  induction h12 generalizing l3 with
  | nil => intro h23; cases h23; exact List.Forall₂.nil
  | cons hh ht ih =>
    intro h23
    cases h23 with
    | cons hh' ht' => exact List.Forall₂.cons (hr _ _ _ hh hh') (ih ht')

theorem binderEvolve_refl (okJ : Nat → Prop) (pb : String × Binder) : BinderEvolve okJ pb pb :=
  ⟨rfl, fun _ => rfl, List.forall₂_same.mpr (fun arr _ => arrFrame_refl okJ arr)⟩

theorem binderEvolve_trans (okJ : Nat → Prop) {x y z : String × Binder}
    (h1 : BinderEvolve okJ x y) (h2 : BinderEvolve okJ y z) : BinderEvolve okJ x z := by
  refine ⟨h2.1.trans h1.1, ?_,
    forall2_trans (ArrFrame okJ) (fun _ _ _ ha hb => arrFrame_trans okJ ha hb) h1.2.2 h2.2.2⟩
  intro hf
  have hy : y = x := h1.2.1 hf
  rw [hy] at h2
  exact h2.2.1 hf

theorem emplaceRange_frame (arr : List Entry) (start stop : Nat) (e : Entry)
    (okJ : Nat → Prop) (hout : ∀ j, okJ j → j < start ∨ stop ≤ j) :
    ArrFrame okJ arr (emplaceRange arr start stop e) :=
  ⟨emplaceRange_length arr start stop e,
   fun j hj => emplaceRange_getElem?_outside arr start stop e j (hout j hj)⟩

theorem sourceBinder_update_array (s : SourceExpressionBinder) (start stop : Nat)
    (f : Feature) (st : FeatureState) :
    ∃ e, (s.updatePaintArray start stop f st).paintVertexArray =
      emplaceRange s.paintVertexArray start stop e := by
  unfold SourceExpressionBinder.updatePaintArray
  dsimp only
  by_cases hc : s.type = "color"
  · rw [if_pos hc]; exact ⟨_, rfl⟩
  · rw [if_neg hc]; exact ⟨_, rfl⟩

theorem compositeBinder_update_array (c : CompositeExpressionBinder) (start stop : Nat)
    (f : Feature) (st : FeatureState) :
    ∃ e, (c.updatePaintArray start stop f st).paintVertexArray =
      emplaceRange c.paintVertexArray start stop e := by
  unfold CompositeExpressionBinder.updatePaintArray
  dsimp only
  by_cases hc : c.type = "color"
  · rw [if_pos hc]; exact ⟨_, rfl⟩
  · rw [if_neg hc]; exact ⟨_, rfl⟩

theorem CrossFadedCompositeBinder.update_arrays (c : CrossFadedCompositeBinder) (start stop : Nat)
    (f : Feature) (st : FeatureState) (ips : Option ImagePositions) :
    ((c.updatePaintArray start stop f st ips).zoomInPaintVertexArray = c.zoomInPaintVertexArray ∧
     (c.updatePaintArray start stop f st ips).zoomOutPaintVertexArray = c.zoomOutPaintVertexArray) ∨
    (∃ eIn eOut,
      (c.updatePaintArray start stop f st ips).zoomInPaintVertexArray =
        emplaceRange c.zoomInPaintVertexArray start stop eIn ∧
      (c.updatePaintArray start stop f st ips).zoomOutPaintVertexArray =
        emplaceRange c.zoomOutPaintVertexArray start stop eOut) := by
  unfold CrossFadedCompositeBinder.updatePaintArray
  cases ips with
  | none => left; exact ⟨rfl, rfl⟩
  | some m =>
    dsimp only
    cases List.lookup (c.expression.evaluate ⟨c.zoom - 1⟩ f (some st)).asKey m <;>
      cases List.lookup (c.expression.evaluate ⟨c.zoom⟩ f (some st)).asKey m <;>
      cases List.lookup (c.expression.evaluate ⟨c.zoom + 1⟩ f (some st)).asKey m <;>
      first
      | (left; exact ⟨rfl, rfl⟩)
      | (right; exact ⟨_, _, rfl, rfl⟩)

theorem updateForState_snd (b : Binder) (property : String) (layer : TypedStyleLayer)
    (pos : PosRecord) (feature : Feature) (featureState : FeatureState)
    (ips : Option ImagePositions) :
    (Binder.updateForState b property layer pos feature featureState ips).2 =
      b.isStateUpdated := by
  cases b with
  | constant c => rfl
  | crossFadedConstant c => rfl
  | source s =>
    by_cases h : s.expression.isStateDependent = true <;>
      simp [Binder.updateForState, Binder.isStateUpdated, h]
  | composite c =>
    by_cases h : c.expression.isStateDependent = true <;>
      simp [Binder.updateForState, Binder.isStateUpdated, h]
  | crossFadedComposite c =>
    by_cases h : c.expression.isStateDependent = true <;>
      simp [Binder.updateForState, Binder.isStateUpdated, h]

theorem updateForState_evolve (b : Binder) (property : String) (layer : TypedStyleLayer)
    (pos : PosRecord) (feature : Feature) (featureState : FeatureState)
    (ips : Option ImagePositions) (okJ : Nat → Prop)
    (hout : ∀ j, okJ j → j < pos.start ∨ pos.stop ≤ j) :
    BinderEvolve okJ (property, b)
      (property, (Binder.updateForState b property layer pos feature featureState ips).1) := by
  cases b with
  | constant c => exact binderEvolve_refl okJ (property, Binder.constant c)
  | crossFadedConstant c => exact binderEvolve_refl okJ (property, Binder.crossFadedConstant c)
  | source s =>
    by_cases hsd : s.expression.isStateDependent = true
    · have hred : (Binder.updateForState (Binder.source s) property layer pos feature
          featureState ips).1 =
          Binder.source ((match List.lookup property layer.paintValues with
            | some v => { s with expression := v.expr }
            | none => s).updatePaintArray pos.start pos.stop feature featureState) := by
        unfold Binder.updateForState
        dsimp only
        rw [if_pos hsd]
      rw [hred]
      refine ⟨rfl, fun hfalse => ?_, ?_⟩
      · have h2 : s.expression.isStateDependent = false := hfalse
        rw [hsd] at h2
        exact Bool.noConfusion h2
      · obtain ⟨e, he⟩ := sourceBinder_update_array
          (match List.lookup property layer.paintValues with
            | some v => { s with expression := v.expr }
            | none => s) pos.start pos.stop feature featureState
        have harr : (match List.lookup property layer.paintValues with
            | some v => ({ s with expression := v.expr } : SourceExpressionBinder)
            | none => s).paintVertexArray = s.paintVertexArray := by
          cases List.lookup property layer.paintValues <;> rfl
        refine List.Forall₂.cons ?_ List.Forall₂.nil
        rw [he, harr]
        exact emplaceRange_frame s.paintVertexArray pos.start pos.stop e okJ hout
    · have hred : (Binder.updateForState (Binder.source s) property layer pos feature
          featureState ips).1 = Binder.source s := by
        unfold Binder.updateForState
        dsimp only
        rw [if_neg hsd]
      rw [hred]
      exact binderEvolve_refl okJ (property, Binder.source s)
  | composite c =>
    by_cases hsd : c.expression.isStateDependent = true
    · have hred : (Binder.updateForState (Binder.composite c) property layer pos feature
          featureState ips).1 =
          Binder.composite ((match List.lookup property layer.paintValues with
            | some v => { c with expression := v.expr }
            | none => c).updatePaintArray pos.start pos.stop feature featureState) := by
        unfold Binder.updateForState
        dsimp only
        rw [if_pos hsd]
      rw [hred]
      refine ⟨rfl, fun hfalse => ?_, ?_⟩
      · have h2 : c.expression.isStateDependent = false := hfalse
        rw [hsd] at h2
        exact Bool.noConfusion h2
      · obtain ⟨e, he⟩ := compositeBinder_update_array
          (match List.lookup property layer.paintValues with
            | some v => { c with expression := v.expr }
            | none => c) pos.start pos.stop feature featureState
        have harr : (match List.lookup property layer.paintValues with
            | some v => ({ c with expression := v.expr } : CompositeExpressionBinder)
            | none => c).paintVertexArray = c.paintVertexArray := by
          cases List.lookup property layer.paintValues <;> rfl
        refine List.Forall₂.cons ?_ List.Forall₂.nil
        rw [he, harr]
        exact emplaceRange_frame c.paintVertexArray pos.start pos.stop e okJ hout
    · have hred : (Binder.updateForState (Binder.composite c) property layer pos feature
          featureState ips).1 = Binder.composite c := by
        unfold Binder.updateForState
        dsimp only
        rw [if_neg hsd]
      rw [hred]
      exact binderEvolve_refl okJ (property, Binder.composite c)
  | crossFadedComposite c =>
    by_cases hsd : c.expression.isStateDependent = true
    · have hred : (Binder.updateForState (Binder.crossFadedComposite c) property layer pos feature
          featureState ips).1 =
          Binder.crossFadedComposite ((match List.lookup property layer.paintValues with
            | some v => { c with expression := v.expr }
            | none => c).updatePaintArray pos.start pos.stop feature featureState ips) := by
        unfold Binder.updateForState
        dsimp only
        rw [if_pos hsd]
      rw [hred]
      have hin : (match List.lookup property layer.paintValues with
          | some v => ({ c with expression := v.expr } : CrossFadedCompositeBinder)
          | none => c).zoomInPaintVertexArray = c.zoomInPaintVertexArray := by
        cases List.lookup property layer.paintValues <;> rfl
      have hout2 : (match List.lookup property layer.paintValues with
          | some v => ({ c with expression := v.expr } : CrossFadedCompositeBinder)
          | none => c).zoomOutPaintVertexArray = c.zoomOutPaintVertexArray := by
        cases List.lookup property layer.paintValues <;> rfl
      refine ⟨rfl, fun hfalse => ?_, ?_⟩
      · have h2 : c.expression.isStateDependent = false := hfalse
        rw [hsd] at h2
        exact Bool.noConfusion h2
      · rcases CrossFadedCompositeBinder.update_arrays
          (match List.lookup property layer.paintValues with
            | some v => { c with expression := v.expr }
            | none => c) pos.start pos.stop feature featureState ips with
          ⟨hA, hB⟩ | ⟨eIn, eOut, hA, hB⟩
        · refine List.Forall₂.cons ?_ (List.Forall₂.cons ?_ List.Forall₂.nil)
          · rw [hA, hin]; exact arrFrame_refl okJ _
          · rw [hB, hout2]; exact arrFrame_refl okJ _
        · refine List.Forall₂.cons ?_ (List.Forall₂.cons ?_ List.Forall₂.nil)
          · rw [hA, hin]; exact emplaceRange_frame _ _ _ _ okJ hout
          · rw [hB, hout2]; exact emplaceRange_frame _ _ _ _ okJ hout
    · have hred : (Binder.updateForState (Binder.crossFadedComposite c) property layer pos feature
          featureState ips).1 = Binder.crossFadedComposite c := by
        unfold Binder.updateForState
        dsimp only
        rw [if_neg hsd]
      rw [hred]
      exact binderEvolve_refl okJ (property, Binder.crossFadedComposite c)

theorem updateBindersForPos_evolve (binders : List (String × Binder)) (layer : TypedStyleLayer)
    (pos : PosRecord) (feature : Feature) (featureState : FeatureState)
    (ips : Option ImagePositions) (okJ : Nat → Prop)
    (hout : ∀ j, okJ j → j < pos.start ∨ pos.stop ≤ j) :
    List.Forall₂ (BinderEvolve okJ) binders
      (updateBindersForPos binders layer pos feature featureState ips).1 := by
  unfold updateBindersForPos
  dsimp only
  induction binders with
  | nil => exact List.Forall₂.nil
  | cons pb rest ih =>
    rw [List.map_cons]
    exact List.Forall₂.cons
      (updateForState_evolve pb.2 pb.1 layer pos feature featureState ips okJ hout) ih

theorem updateBindersForPos_snd (binders : List (String × Binder)) (layer : TypedStyleLayer)
    (pos : PosRecord) (feature : Feature) (featureState : FeatureState)
    (ips : Option ImagePositions) :
    (updateBindersForPos binders layer pos feature featureState ips).2 =
      binders.any (fun pb => pb.2.isStateUpdated) := by
  unfold updateBindersForPos
  dsimp only
  simp only [updateForState_snd]

theorem updatePosArray_cons (layer : TypedStyleLayer) (vtLayer : VectorTileLayer)
    (featureState : FeatureState) (ips : Option ImagePositions)
    (acc : ProgramConfiguration × Bool) (r : PosRecord) (rs : List PosRecord) :
    updatePosArray layer vtLayer featureState ips acc (r :: rs) =
      updatePosArray layer vtLayer featureState ips
        ({ acc.1 with binders := (updateBindersForPos acc.1.binders layer r
            (vtLayer.feature r.index) featureState ips).1 },
         acc.2 || (updateBindersForPos acc.1.binders layer r
            (vtLayer.feature r.index) featureState ips).2) rs := rfl

theorem updatePosArray_evolve (layer : TypedStyleLayer) (vtLayer : VectorTileLayer)
    (featureState : FeatureState) (ips : Option ImagePositions) (okJ : Nat → Prop) :
    ∀ (recs : List PosRecord) (acc : ProgramConfiguration × Bool),
      (∀ r ∈ recs, ∀ j, okJ j → j < r.start ∨ r.stop ≤ j) →
      (updatePosArray layer vtLayer featureState ips acc recs).1.idMap = acc.1.idMap ∧
      (updatePosArray layer vtLayer featureState ips acc recs).1.bufferOffset =
        acc.1.bufferOffset ∧
      (updatePosArray layer vtLayer featureState ips acc recs).1.cacheKey = acc.1.cacheKey ∧
      List.Forall₂ (BinderEvolve okJ) acc.1.binders
        (updatePosArray layer vtLayer featureState ips acc recs).1.binders := by
  intro recs
  induction recs with
  | nil =>
    intro acc _
    exact ⟨rfl, rfl, rfl, List.forall₂_same.mpr (fun pb _ => binderEvolve_refl okJ pb)⟩
  | cons r rs ih =>
    intro acc hout
    have hstep : updatePosArray layer vtLayer featureState ips acc (r :: rs) =
        updatePosArray layer vtLayer featureState ips
          ({ acc.1 with binders := (updateBindersForPos acc.1.binders layer r
              (vtLayer.feature r.index) featureState ips).1 },
           acc.2 || (updateBindersForPos acc.1.binders layer r
              (vtLayer.feature r.index) featureState ips).2) rs := rfl
    rw [hstep]
    obtain ⟨h1, h2, h3, h4⟩ := ih _ (fun r' hr' => hout r' (List.mem_cons_of_mem r hr'))
    refine ⟨h1, h2, h3, ?_⟩
    refine forall2_trans (BinderEvolve okJ)
      (fun _ _ _ ha hb => binderEvolve_trans okJ ha hb) ?_ h4
    exact updateBindersForPos_evolve acc.1.binders layer r (vtLayer.feature r.index)
      featureState ips okJ (hout r (List.mem_cons_self r rs))

theorem updatePosArray_dirty_mono (layer : TypedStyleLayer) (vtLayer : VectorTileLayer)
    (featureState : FeatureState) (ips : Option ImagePositions) :
    ∀ (recs : List PosRecord) (acc : ProgramConfiguration × Bool), acc.2 = true →
      (updatePosArray layer vtLayer featureState ips acc recs).2 = true := by
  intro recs
  induction recs with
  | nil => intro acc h; exact h
  | cons r rs ih =>
    intro acc h
    rw [updatePosArray_cons]
    refine ih _ ?_
    show (acc.2 || (updateBindersForPos acc.1.binders layer r
      (vtLayer.feature r.index) featureState ips).2) = true
    rw [h, Bool.true_or]

theorem updatePosArray_dirty (layer : TypedStyleLayer) (vtLayer : VectorTileLayer)
    (featureState : FeatureState) (ips : Option ImagePositions) (r : PosRecord)
    (rs : List PosRecord) (acc : ProgramConfiguration × Bool)
    (hb : ∃ pb ∈ acc.1.binders, pb.2.isStateUpdated = true) :
    (updatePosArray layer vtLayer featureState ips acc (r :: rs)).2 = true := by
  rw [updatePosArray_cons]
  apply updatePosArray_dirty_mono
  show (acc.2 || (updateBindersForPos acc.1.binders layer r
    (vtLayer.feature r.index) featureState ips).2) = true
  rw [updateBindersForPos_snd]
  obtain ⟨pb, hpb, hsd⟩ := hb
  rw [List.any_eq_true.mpr ⟨pb, hpb, hsd⟩, Bool.or_true]

theorem updateFold_evolve (vtLayer : VectorTileLayer) (layer : TypedStyleLayer)
    (ips : Option ImagePositions) (pc : ProgramConfiguration)
    (featureStates : List (String × FeatureState)) :
    ∀ (rest : List (String × FeatureState)) (acc : ProgramConfiguration × Bool),
      (∀ p ∈ rest, p ∈ featureStates) →
      acc.1.idMap = pc.idMap → acc.1.bufferOffset = pc.bufferOffset →
      acc.1.cacheKey = pc.cacheKey →
      List.Forall₂ (BinderEvolve (OutsideSlices featureStates pc.idMap)) pc.binders
        acc.1.binders →
      (rest.foldl (updateStep vtLayer layer ips) acc).1.idMap = pc.idMap ∧
      (rest.foldl (updateStep vtLayer layer ips) acc).1.bufferOffset = pc.bufferOffset ∧
      (rest.foldl (updateStep vtLayer layer ips) acc).1.cacheKey = pc.cacheKey ∧
      List.Forall₂ (BinderEvolve (OutsideSlices featureStates pc.idMap)) pc.binders
        (rest.foldl (updateStep vtLayer layer ips) acc).1.binders := by
  intro rest
  induction rest with
  | nil => intro acc _ h1 h2 h3 h4; exact ⟨h1, h2, h3, h4⟩
  | cons p ps ih =>
    intro acc hsub h1 h2 h3 h4
    rw [List.foldl_cons]
    cases hl : List.lookup p.1 acc.1.idMap with
    | none =>
      have hskip : updateStep vtLayer layer ips acc p = acc := by
        unfold updateStep
        rw [hl]
      rw [hskip]
      exact ih acc (fun q hq => hsub q (List.mem_cons_of_mem p hq)) h1 h2 h3 h4
    | some recs =>
      have hstep : updateStep vtLayer layer ips acc p =
          updatePosArray layer vtLayer p.2 ips acc recs := by
        unfold updateStep
        rw [hl]
      rw [hstep]
      have hout : ∀ r ∈ recs, ∀ j, OutsideSlices featureStates pc.idMap j →
          j < r.start ∨ r.stop ≤ j := by
        intro r hr j hj
        exact hj p (hsub p (List.mem_cons_self p ps)) recs (h1 ▸ hl) r hr
      obtain ⟨g1, g2, g3, g4⟩ :=
        updatePosArray_evolve layer vtLayer p.2 ips (OutsideSlices featureStates pc.idMap)
          recs acc hout
      refine ih _ (fun q hq => hsub q (List.mem_cons_of_mem p hq))
        (g1.trans h1) (g2.trans h2) (g3.trans h3) ?_
      exact forall2_trans (BinderEvolve (OutsideSlices featureStates pc.idMap))
        (fun _ _ _ ha hb => binderEvolve_trans _ ha hb) h4 g4

theorem updateFold_dirty_mono (vtLayer : VectorTileLayer) (layer : TypedStyleLayer)
    (ips : Option ImagePositions) :
    ∀ (rest : List (String × FeatureState)) (acc : ProgramConfiguration × Bool),
      acc.2 = true → (rest.foldl (updateStep vtLayer layer ips) acc).2 = true := by
  intro rest
  induction rest with
  | nil => intro acc h; exact h
  | cons p ps ih =>
    intro acc h
    rw [List.foldl_cons]
    refine ih _ ?_
    unfold updateStep
    cases List.lookup p.1 acc.1.idMap with
    | none => exact h
    | some recs => exact updatePosArray_dirty_mono layer vtLayer p.2 ips recs acc h

theorem updateFold_dirty (vtLayer : VectorTileLayer) (layer : TypedStyleLayer)
    (ips : Option ImagePositions) :
    ∀ (rest : List (String × FeatureState)) (acc : ProgramConfiguration × Bool),
      (∃ p ∈ rest, ∃ recs, List.lookup p.1 acc.1.idMap = some recs ∧ recs ≠ []) →
      (∃ pb ∈ acc.1.binders, pb.2.isStateUpdated = true) →
      (rest.foldl (updateStep vtLayer layer ips) acc).2 = true := by
  intro rest
  induction rest with
  | nil =>
    intro acc hmatch _
    obtain ⟨p, hp, _⟩ := hmatch
    exact absurd hp (List.not_mem_nil p)
  | cons p ps ih =>
    intro acc hmatch hb
    rw [List.foldl_cons]
    cases hl : List.lookup p.1 acc.1.idMap with
    | none =>
      have hskip : updateStep vtLayer layer ips acc p = acc := by
        unfold updateStep
        rw [hl]
      rw [hskip]
      refine ih acc ?_ hb
      obtain ⟨q, hq, recs, hrecs, hne⟩ := hmatch
      rcases List.mem_cons.mp hq with hq | hq
      · subst hq
        rw [hl] at hrecs
        exact Option.noConfusion hrecs
      · exact ⟨q, hq, recs, hrecs, hne⟩
    | some recs =>
      cases recs with
      | nil =>
        have hskip : updateStep vtLayer layer ips acc p = acc := by
          unfold updateStep
          rw [hl]
          rfl
        rw [hskip]
        refine ih acc ?_ hb
        obtain ⟨q, hq, recs', hrecs, hne⟩ := hmatch
        rcases List.mem_cons.mp hq with hq | hq
        · subst hq
          rw [hl] at hrecs
          have : ([] : List PosRecord) = recs' := by injection hrecs
          exact absurd this.symm hne
        · exact ⟨q, hq, recs', hrecs, hne⟩
      | cons r rs =>
        have hstep : updateStep vtLayer layer ips acc p =
            updatePosArray layer vtLayer p.2 ips acc (r :: rs) := by
          unfold updateStep
          rw [hl]
        rw [hstep]
        exact updateFold_dirty_mono vtLayer layer ips ps _
          (updatePosArray_dirty layer vtLayer p.2 ips r rs acc hb)

/-- C2 (confirmed): an `updatePaintArrays` call never changes the feature-id
map, the buffer offset or the cache key; along the binder list (names
preserved), any binder that is constant, cross-faded constant, or not
state-dependent is left exactly equal, and every binder's every paint array
keeps its length and its prior value at every index lying outside all
recorded `[start, end)` slices of the ids present in `featureStates`; and
the call returns true whenever some present id has a non-empty record list
and some binder is state-dependent (i.e. at least one binder was updated). -/
theorem C2_theorem (pc : ProgramConfiguration) (featureStates : List (String × FeatureState))
    (vtLayer : VectorTileLayer) (layer : TypedStyleLayer) (ips : Option ImagePositions) :
    ((pc.updatePaintArrays featureStates vtLayer layer ips).1.idMap = pc.idMap ∧
     (pc.updatePaintArrays featureStates vtLayer layer ips).1.bufferOffset = pc.bufferOffset ∧
     (pc.updatePaintArrays featureStates vtLayer layer ips).1.cacheKey = pc.cacheKey) ∧
    List.Forall₂ (BinderEvolve (OutsideSlices featureStates pc.idMap)) pc.binders
      (pc.updatePaintArrays featureStates vtLayer layer ips).1.binders ∧
    ((∃ p ∈ featureStates, ∃ recs, List.lookup p.1 pc.idMap = some recs ∧ recs ≠ []) →
      (∃ pb ∈ pc.binders, pb.2.isStateUpdated = true) →
      (pc.updatePaintArrays featureStates vtLayer layer ips).2 = true) := by
  have hfold := updateFold_evolve vtLayer layer ips pc featureStates featureStates (pc, false)
    (fun p hp => hp) rfl rfl rfl
    (List.forall₂_same.mpr (fun pb _ => binderEvolve_refl _ pb))
  exact ⟨⟨hfold.1, hfold.2.1, hfold.2.2.1⟩, hfold.2.2.2,
    fun hmatch hb => updateFold_dirty vtLayer layer ips featureStates (pc, false) hmatch hb⟩

/-- C2 witness: updating the populated example configuration for the known
id "7" (whose recorded slice is `[0, 1)`) touches only the state-dependent
binders within that slice and returns true. -/
theorem C2_witness :
    ((∃ p ∈ [(("7" : String), ([] : FeatureState))],
        ∃ recs, List.lookup p.1 examplePC1.idMap = some recs ∧ recs ≠ []) ∧
      (∃ pb ∈ examplePC1.binders, pb.2.isStateUpdated = true)) ∧
    (examplePC1.updatePaintArrays [("7", [])] exampleVTLayer exampleLayer
      (some examplePositions)).2 = true ∧
    List.Forall₂ (BinderEvolve (OutsideSlices [("7", [])] examplePC1.idMap))
      examplePC1.binders
      (examplePC1.updatePaintArrays [("7", [])] exampleVTLayer exampleLayer
        (some examplePositions)).1.binders ∧
    (examplePC1.updatePaintArrays [("7", [])] exampleVTLayer exampleLayer
      (some examplePositions)).1.idMap = examplePC1.idMap := by
  refine ⟨⟨by decide, by decide⟩, ?_, ?_, ?_⟩
  · exact (C2_theorem examplePC1 [("7", [])] exampleVTLayer exampleLayer
      (some examplePositions)).2.2 (by decide) (by decide)
  · exact (C2_theorem examplePC1 [("7", [])] exampleVTLayer exampleLayer
      (some examplePositions)).2.1
  · exact (C2_theorem examplePC1 [("7", [])] exampleVTLayer exampleLayer
      (some examplePositions)).1.1
